import Mathlib

/-!
Shallow embedding of the data-ingestion / conflict-resolution backend
(`backend/worker.py`, `backend/main.py`, `backend/models.py`,
`backend/constants.py`) as pure Lean functions over an explicit database
state.  The HTTP layer, authentication and the blob store are out of scope
per the specification; a job (called `Application` in `main.py` and `Job`
in `models.py`) is modelled by its pipeline-relevant fields, a queue
message carries the job id together with the decoded CSV records (an
absent payload models a storage fetch failure), and each endpoint or
worker function becomes a function from database state to database state,
returning `Except`-style results where the code raises HTTP errors or
uncaught exceptions.
-/

namespace Ingest

/-- Job status enum, `backend/constants.py` `JobStatus`. -/
inductive JobStatus where
  | PENDING
  | PROCESSING
  | NEEDS_REVIEW
  | COMPLETED
  | FAILED
deriving Repr, DecidableEq

/-- Issue type enum, `backend/constants.py` `IssueType`. -/
inductive IssueType where
  | DUPLICATE_EMAIL
  | CONFLICTING_COMPANY
deriving Repr, DecidableEq

/-- Issue status enum, `backend/constants.py` `IssueStatus`. -/
inductive IssueStatus where
  | OPEN
  | RESOLVED
deriving Repr, DecidableEq

/-- One decoded CSV record: `row.get("email")` etc. may be absent. -/
structure Record where
  email : Option String
  firstName : Option String
  lastName : Option String
  company : Option String
deriving Repr, DecidableEq

/-- The structured payload stored in `RawRow.data_json`
(`worker.py` lines 174-179): the email slot holds the normalized email. -/
structure RowData where
  email : Option String
  firstName : Option String
  lastName : Option String
  company : Option String
deriving Repr, DecidableEq

/-- `models.RawRow`: validation errors are stored as the (possibly empty)
list of failure codes. -/
structure RawRow where
  id : Nat
  jobId : Nat
  rowNumber : Nat
  data : RowData
  normalizedEmail : Option String
  isValid : Bool
  validationErrors : List String
deriving Repr, DecidableEq

/-- One candidate snapshot inside an issue payload
(`worker.py` lines 199-206). -/
structure Candidate where
  rawRowId : Nat
  rowNumber : Nat
  data : RowData
deriving Repr, DecidableEq

/-- The JSON payload of an issue (`worker.py` lines 59-62). -/
structure IssuePayload where
  email : String
  candidates : List Candidate
deriving Repr, DecidableEq

/-- `models.Issue`. -/
structure Issue where
  id : Nat
  jobId : Nat
  type : IssueType
  status : IssueStatus
  key : String
  payload : IssuePayload
deriving Repr, DecidableEq

/-- The JSON payload recorded in `IssueResolution.resolution_json` by the
three branches of `main.resolve_issue`: only the `choose` branch stores a
`chosen_row_id` key. -/
inductive ResolutionPayload where
  | choose (chosenRowId : Nat)
  | edit (rowId : Nat) (updEmail updFirst updLast updCompany : Option (Option String))
  | skip (rowId : Option Nat)
deriving Repr, DecidableEq

/-- Reading `data["chosen_row_id"]` from a resolution payload: the key is
present only for a `choose` resolution; `none` models the `KeyError` the
code raises on the other two actions (`main.py` line 172). -/
def ResolutionPayload.chosenRowIdKey : ResolutionPayload → Option Nat
  | .choose c => some c
  | _ => none

/-- `models.IssueResolution` (1:1 with an issue). -/
structure Resolution where
  issueId : Nat
  payload : ResolutionPayload
deriving Repr, DecidableEq

/-- `models.FinalContact` (identity column omitted; rows are compared by
value). -/
structure FinalContact where
  jobId : Nat
  email : String
  firstName : Option String
  lastName : Option String
  company : Option String
deriving Repr, DecidableEq

/-- `models.Job` (named `Application` in `main.py`); user ownership and
file keys are out of scope. -/
structure Job where
  id : Nat
  status : JobStatus
  totalRows : Nat
  validRows : Nat
  invalidRows : Nat
  conflictCount : Nat
  errorMessage : Option String
deriving Repr, DecidableEq

/-- The whole database state; `nextRowId` / `nextIssueId` model the
primary-key sequences. -/
structure DB where
  jobs : List Job
  rawRows : List RawRow
  issues : List Issue
  resolutions : List Resolution
  finalContacts : List FinalContact
  nextRowId : Nat
  nextIssueId : Nat
deriving Repr, DecidableEq

/-- Request body of `POST /issues/{id}/resolve` (`schemas.ResolveIssueIn`).
`updatedData = none` models an absent (or empty, hence falsy) update
mapping; an inner `some none` models a key present with a null value. -/
structure ResolveBody where
  action : String
  chosenRowId : Option Nat
  rowId : Option Nat
  updEmail : Option (Option String)
  updFirst : Option (Option String)
  updLast : Option (Option String)
  updCompany : Option (Option String)
  hasUpdatedData : Bool
deriving Repr, DecidableEq

/-- A queue message after JSON decoding: the file payload is the decoded list
of CSV records, `none` modelling a storage fetch failure
(`download_bytes` raising). -/
structure QueueMsg where
  jobId : Nat
  file : Option (List Record)
deriving Repr, DecidableEq

/-! ### Generic list helpers mirroring ORM access patterns -/

/-- First element satisfying `p` (`Session.get` / `.one_or_none()` by key). -/
def findFirst (p : α → Prop) [DecidablePred p] : List α → Option α
  | [] => none
  | x :: t => if p x then some x else findFirst p t

/-- Mutate, in place, the first element satisfying `p` (the ORM mutates the
fetched object). -/
def updateFirst (p : α → Prop) [DecidablePred p] (f : α → α) : List α → List α
  | [] => []
  | x :: t => if p x then f x :: t else x :: updateFirst p f t

/-- Python `dict` lookup on an insertion-ordered association list. -/
def lookupAssoc : List (String × β) → String → Option β
  | [], _ => none
  | (k, v) :: t, key => if k = key then some v else lookupAssoc t key

/-- Python `d[k] = v`: overwrite in place, else append. -/
def assocUpdate : List (String × β) → String → β → List (String × β)
  | [], k, v => [(k, v)]
  | (k0, v0) :: t, k, v =>
      if k0 = k then (k0, v) :: t else (k0, v0) :: assocUpdate t k v

/-- Python `d.setdefault(k, []).append(x)`. -/
def assocAppend : List (String × List α) → String → α → List (String × List α)
  | [], k, x => [(k, [x])]
  | (k0, xs) :: t, k, x =>
      if k0 = k then (k0, xs ++ [x]) :: t else (k0, xs) :: assocAppend t k x

/-- Python `d.setdefault(k, set()).add(x)`: duplicates collapse, the list
cardinality is the set cardinality. -/
def assocInsertSet [DecidableEq α] :
    List (String × List α) → String → α → List (String × List α)
  | [], k, x => [(k, [x])]
  | (k0, xs) :: t, k, x =>
      if k0 = k then (k0, if x ∈ xs then xs else xs ++ [x]) :: t
      else (k0, xs) :: assocInsertSet t k x

/-! ### Python string primitives

The Python string methods the source relies on, modelled over the
character list (ASCII semantics, enough for every string the pipeline
manipulates). -/

/-- The whitespace characters removed by Python `str.strip()`. -/
def pyIsSpace (c : Char) : Bool := c = ' ' || c = '\t' || c = '\n' || c = '\r'

/-- Python `s.strip()`. -/
def pyStrip (s : String) : String :=
  ⟨((s.data.dropWhile pyIsSpace).reverse.dropWhile pyIsSpace).reverse⟩

def pyLowerChar (c : Char) : Char :=
  if 65 ≤ c.toNat ∧ c.toNat ≤ 90 then Char.ofNat (c.toNat + 32) else c

/-- Python `s.lower()`. -/
def pyLower (s : String) : String := ⟨s.data.map pyLowerChar⟩

def splitCharAux (sep : Char) : List Char → List (List Char)
  | [] => [[]]
  | c :: t =>
      match splitCharAux sep t with
      | [] => [[]]
      | h :: r => if c = sep then [] :: h :: r else (c :: h) :: r

/-- Python `s.split(sep)` for a one-character separator. -/
def pySplit (sep : Char) (s : String) : List String :=
  (splitCharAux sep s.data).map (fun l => ⟨l⟩)

/-- Python `c in s` for a one-character needle. -/
def pyContains (s : String) (c : Char) : Bool := s.data.any (fun x => x = c)

/-! ### Row validation and normalization (`worker.py`) -/

/-- `worker.normalize_email` (lines 18-22): `None`/empty give `None`, else
trim surrounding whitespace and lowercase, an empty result giving `None`.
Note: the source does not strip a trailing parenthetical annotation,
although the test suite expects it to. -/
def normalize_email (email : Option String) : Option String :=
  match email with
  | none => none
  | some s =>
      if s = "" then none
      else
        let e := pyLower (pyStrip s)
        if e = "" then none else some e

/-- `worker.identity_signature` (lines 25-30). -/
def identity_signature (row : Record) : String × String × String :=
  ((pyLower (pyStrip (row.firstName.getD ""))),
   (pyLower (pyStrip (row.lastName.getD ""))),
   (pyLower (pyStrip (row.company.getD ""))))

/-- The inline email format check of `worker.process_job` line 162:
`"@" not in email or "." not in email.split("@")[-1]`. -/
def inlineEmailInvalid (e : String) : Bool :=
  !(pyContains e '@') || !(pyContains ((pySplit '@' e).getLastD "") '.')

/-- The failure codes recorded for one record by `worker.process_job`
lines 156-163, applied to the already-normalized email. -/
def rowValidationErrors (email : Option String) : List String :=
  match email with
  | none => ["missing_email"]
  | some e => if inlineEmailInvalid e then ["invalid_email_format"] else []

/-- Modelled from the spec: `is_valid_email_format` is imported from the
worker module by `main.resolve_issue` (line 269) and by the test suite,
but no definition exists anywhere under the source tree; modelled from
spec section 4.1: exactly one `@`, a non-empty local part, a domain part
containing at least one `.` with no empty labels, and no illegal
separator characters (e.g. `;`). -/
def is_valid_email_format (e : String) : Bool :=
  !(pyContains e ';') &&
  (match pySplit '@' e with
   | [loc, domain] =>
       !(loc = "") && decide (2 ≤ (pySplit '.' domain).length)
         && (pySplit '.' domain).all (fun lab => !(lab = ""))
   | _ => false)

/-! ### Small database accessors -/

def findJob (db : DB) (jid : Nat) : Option Job :=
  findFirst (fun j => j.id = jid) db.jobs

def findIssue (db : DB) (iid : Nat) : Option Issue :=
  findFirst (fun i => i.id = iid) db.issues

def findRow (db : DB) (rid : Nat) : Option RawRow :=
  findFirst (fun r => r.id = rid) db.rawRows

def setJob (db : DB) (jid : Nat) (f : Job → Job) : DB :=
  { db with jobs := updateFirst (fun j => j.id = jid) f db.jobs }

def setIssueResolved (db : DB) (iid : Nat) : DB :=
  let issues' := updateFirst (fun i => i.id = iid)
    (fun i => { i with status := IssueStatus.RESOLVED }) db.issues
  { db with issues := issues' }

/-- Upsert of the 1:1 resolution row (the repeated
`one_or_none` / overwrite-or-insert pattern of `main.resolve_issue`). -/
def upsertResolution (db : DB) (iid : Nat) (p : ResolutionPayload) : DB :=
  match findFirst (fun r => r.issueId = iid) db.resolutions with
  | some _ =>
      let rs := updateFirst (fun r => r.issueId = iid)
        (fun r => { r with payload := p }) db.resolutions
      { db with resolutions := rs }
  | none =>
      { db with resolutions := db.resolutions ++ [⟨iid, p⟩] }

/-- Count of OPEN issues of a job (the repeated
`filter(status == OPEN).count()` query). -/
def openCount (db : DB) (jid : Nat) : Nat :=
  (db.issues.filter (fun i =>
    decide (i.jobId = jid) && decide (i.status = IssueStatus.OPEN))).length

/-- All currently valid rows of a job (the
`filter(job_id, is_valid == True)` query, in primary-key order). -/
def validRowsOf (db : DB) (jid : Nat) : List RawRow :=
  db.rawRows.filter (fun r => decide (r.jobId = jid) && r.isValid)

/-- Insertion-ordered grouping `by_email` used by both finalizers: rows
without a normalized email are skipped. -/
def groupByEmail (rows : List RawRow) : List (String × List RawRow) :=
  rows.foldl (fun acc r =>
    match r.normalizedEmail with
    | none => acc
    | some e => assocAppend acc e r) []

def mkContact (jid : Nat) (e : String) (d : RowData) : FinalContact :=
  { jobId := jid, email := e, firstName := d.firstName,
    lastName := d.lastName, company := d.company }

/-! ### `worker.upsert_duplicate_issue` (lines 43-81) -/

def issueKeyMatch (jid : Nat) (email : String) (i : Issue) : Prop :=
  i.jobId = jid ∧ i.type = IssueType.DUPLICATE_EMAIL ∧ i.key = email

instance (jid : Nat) (email : String) : DecidablePred (issueKeyMatch jid email) :=
  fun _ => by unfold issueKeyMatch; infer_instance

def upsert_duplicate_issue (db : DB) (jid : Nat) (email : String)
    (candidateRows : List Candidate) : DB :=
  let payload : IssuePayload := { email := email, candidates := candidateRows }
  match findFirst (issueKeyMatch jid email) db.issues with
  | some _ =>
      let issues' := updateFirst (issueKeyMatch jid email)
        (fun i => { i with payload := payload }) db.issues
      { db with issues := issues' }
  | none =>
      let newIssue : Issue :=
        { id := db.nextIssueId, jobId := jid,
          type := IssueType.DUPLICATE_EMAIL, status := IssueStatus.OPEN,
          key := email, payload := payload }
      { db with issues := db.issues ++ [newIssue],
                nextIssueId := db.nextIssueId + 1 }

/-! ### `worker.auto_finalize_if_no_issues` (lines 84-117) -/

/-- Contacts built by the worker finalizer: always the first row of each
email group, resolutions consulted nowhere. -/
def buildContactsFirst (jid : Nat) (groups : List (String × List RawRow)) :
    List FinalContact :=
  groups.filterMap (fun g => (g.2.head?).map (fun r => mkContact jid g.1 r.data))

def auto_finalize_if_no_issues (db : DB) (jid : Nat) : DB × Bool :=
  if 0 < openCount db jid then (db, false)
  else
    let contacts := buildContactsFirst jid (groupByEmail (validRowsOf db jid))
    ({ db with
        finalContacts := db.finalContacts ++ contacts,
        jobs := updateFirst (fun j => j.id = jid)
          (fun j => { j with status := JobStatus.COMPLETED }) db.jobs },
     true)


/-! ### `worker.process_job` (lines 120-225) -/

/-- The pre-processing cleanup of `worker.process_job` lines 133-137:
delete the previous `RawRow` and `FinalContact` rows of the job; issues
and resolutions are deliberately not deleted. -/
def clearJobRows (db : DB) (jid : Nat) : DB :=
  { db with
      rawRows := db.rawRows.filter (fun r => !(decide (r.jobId = jid))),
      finalContacts := db.finalContacts.filter (fun c => !(decide (c.jobId = jid))) }

/-- Stage entry of `worker.process_job` lines 129-137: transition to
PROCESSING, clear the error message, then clear the previous rows. -/
def preparedDB (db : DB) (jid : Nat) : DB :=
  clearJobRows
    (setJob db jid (fun j =>
      { j with status := JobStatus.PROCESSING, errorMessage := none })) jid

/-- Accumulator of the per-record ingestion loop
(`worker.process_job` lines 144-191). -/
structure IngestState where
  db : DB
  emailSigs : List (String × List (String × String × String))
  emailRowIds : List (String × List Nat)
  total : Nat
  valid : Nat
  invalid : Nat
  rowNumber : Nat
deriving Repr

/-- The grouping update for one record: only a valid record with an email
feeds the duplicate-detection maps (`worker.py` lines 188-191). -/
def groupingUpdate (st : IngestState) (rec : Record) (email : Option String)
    (isValid : Bool) (rowId : Nat) :
    List (String × List (String × String × String)) × List (String × List Nat) :=
  match email, isValid with
  | some e, true =>
      (assocInsertSet st.emailSigs e (identity_signature rec),
       assocAppend st.emailRowIds e rowId)
  | _, _ => (st.emailSigs, st.emailRowIds)

/-- One iteration of the ingestion loop: validate, persist a `RawRow`,
and feed a valid emailed row into the duplicate-detection grouping. -/
def ingestRecord (jid : Nat) (st : IngestState) (rec : Record) : IngestState :=
  { db :=
      { st.db with
          rawRows := st.db.rawRows ++
            [{ id := st.db.nextRowId, jobId := jid, rowNumber := st.rowNumber,
               data := { email := normalize_email rec.email,
                         firstName := rec.firstName,
                         lastName := rec.lastName, company := rec.company },
               normalizedEmail := normalize_email rec.email,
               isValid := (rowValidationErrors (normalize_email rec.email)).isEmpty,
               validationErrors := rowValidationErrors (normalize_email rec.email) }],
          nextRowId := st.db.nextRowId + 1 },
    emailSigs := (groupingUpdate st rec (normalize_email rec.email)
      (rowValidationErrors (normalize_email rec.email)).isEmpty st.db.nextRowId).1,
    emailRowIds := (groupingUpdate st rec (normalize_email rec.email)
      (rowValidationErrors (normalize_email rec.email)).isEmpty st.db.nextRowId).2,
    total := st.total + 1,
    valid := if (rowValidationErrors (normalize_email rec.email)).isEmpty
      then st.valid + 1 else st.valid,
    invalid := if (rowValidationErrors (normalize_email rec.email)).isEmpty
      then st.invalid else st.invalid + 1,
    rowNumber := st.rowNumber + 1 }

/-- The whole ingestion loop, started with sequence number 2
(`worker.py` line 152). -/
def ingestPhase (jid : Nat) (db2 : DB) (records : List Record) : IngestState :=
  records.foldl (ingestRecord jid)
    { db := db2, emailSigs := [], emailRowIds := [],
      total := 0, valid := 0, invalid := 0, rowNumber := 2 }

/-- One iteration of the conflict-detection loop
(`worker.process_job` lines 194-208): an email with more than one
distinct identity signature gets an upserted issue built from the row
snapshots. -/
def detectEmail (jid : Nat) (emailRowIds : List (String × List Nat))
    (acc : DB × Nat) (g : String × List (String × String × String)) : DB × Nat :=
  if 1 < g.2.length then
    (upsert_duplicate_issue acc.1 jid g.1
      (((acc.1.rawRows.filter
          (fun r => decide (r.id ∈ (lookupAssoc emailRowIds g.1).getD []))).map
        (fun r => ({ rawRowId := r.id, rowNumber := r.rowNumber,
                     data := r.data } : Candidate)))),
     acc.2 + 1)
  else acc

/-- The whole conflict-detection loop. -/
def detectPhase (jid : Nat) (st : IngestState) : DB × Nat :=
  st.emailSigs.foldl (detectEmail jid st.emailRowIds) (st.db, 0)

/-- Status decision of `worker.process_job` lines 216-225: NEEDS_REVIEW
when OPEN issues remain, else auto-finalize. -/
def finishJob (jid : Nat) (db3 : DB) : DB :=
  if 0 < openCount db3 jid then
    setJob db3 jid (fun j => { j with status := JobStatus.NEEDS_REVIEW })
  else (auto_finalize_if_no_issues db3 jid).1

/-- Counters update of `worker.process_job` lines 210-214 followed by the
status decision. -/
def statusPhase (jid : Nat) (st : IngestState) (det : DB × Nat) : DB :=
  finishJob jid
    (setJob det.1 jid (fun j =>
      { j with totalRows := st.total, validRows := st.valid,
               invalidRows := st.invalid, conflictCount := det.2 }))

/-- The pipeline body once the file bytes are available. -/
def pipelineCore (db2 : DB) (jid : Nat) (records : List Record) : DB :=
  statusPhase jid (ingestPhase jid db2 records)
    (detectPhase jid (ingestPhase jid db2 records))

/-- `worker.process_job`: `.ok` is a completed pipeline run; `.error`
carries the exception message together with the database state already
committed when the exception is raised (only the storage fetch is
modelled as fallible — an absent file payload). -/
def process_job (db : DB) (jid : Nat) (file : Option (List Record)) :
    Except (String × DB) DB :=
  match findJob db jid with
  | none => .ok db
  | some job =>
      if job.status = JobStatus.COMPLETED then .ok db
      else
        match file with
        | none => .error ("download_bytes failed", preparedDB db jid)
        | some records => .ok (pipelineCore (preparedDB db jid) jid records)

/-- `worker.set_job_failed` guarded as in `worker.main` lines 256-267. -/
def markJobFailed (db : DB) (jid : Nat) (msg : String) : DB :=
  match findJob db jid with
  | some j =>
      if j.status = JobStatus.COMPLETED then db
      else setJob db jid (fun job =>
        { job with status := JobStatus.FAILED,
                   errorMessage := some (msg.take 5000) })
  | none => db

/-- One handled message of the worker loop (`worker.main` lines 236-267):
on a clean pipeline run the message is deleted (acknowledged, second
component `true`); on an exception the job is best-effort marked FAILED
and the message is left for redelivery. -/
def workerStep (db : DB) (m : QueueMsg) : DB × Bool :=
  match process_job db m.jobId m.file with
  | .ok db' => (db', true)
  | .error (msg, dbp) => (markJobFailed dbp m.jobId msg, false)

/-! ### `main.finalize_job` (lines 147-203) -/

/-- Result of the finalize endpoint: `clientError` is a raised
`HTTPException` (no state committed before it), `crash` is the uncaught
`KeyError` of line 172 — raised after the deletion of the previous
`FinalContact` rows was already committed (line 159). -/
inductive FinalizeResult where
  | ok (db : DB)
  | clientError (code : Nat)
  | crash (db : DB)
deriving Repr, DecidableEq

/-- The committed deletion of the previous `FinalContact` rows of the job
(`main.py` lines 157-159). -/
def clearedContacts (db : DB) (jid : Nat) : DB :=
  { db with finalContacts :=
      db.finalContacts.filter (fun c => !(decide (c.jobId = jid))) }

/-- The `chosen_by_email` map (`main.py` lines 161-172), built from the
inner join of the job's issues with their resolutions; `none` models the
`KeyError` raised when a duplicate-email resolution carries no
`chosen_row_id` (an `edit` or `skip` resolution). -/
def buildChosen (issues : List Issue) (resolutions : List Resolution)
    (jid : Nat) : Option (List (String × Nat)) :=
  (issues.filter (fun i => decide (i.jobId = jid))).foldlM
    (fun acc i =>
      match findFirst (fun r => r.issueId = i.id) resolutions with
      | none => some acc
      | some res =>
          if i.type = IssueType.DUPLICATE_EMAIL then
            match res.payload.chosenRowIdKey with
            | some rid => some (assocUpdate acc i.key rid)
            | none => none
          else some acc)
    []

/-- Contact construction of `main.finalize_job` lines 181-198: a chosen
row id is looked up globally; a dangling chosen id skips the email. -/
def buildContactsChosen (rows : List RawRow) (jid : Nat)
    (chosen : List (String × Nat)) (groups : List (String × List RawRow)) :
    List FinalContact :=
  groups.filterMap (fun g =>
    match lookupAssoc chosen g.1 with
    | some rid =>
        (findFirst (fun r => r.id = rid) rows).map
          (fun row => mkContact jid g.1 row.data)
    | none => (g.2.head?).map (fun r => mkContact jid g.1 r.data))

/-- The successful tail of the finalize endpoint (`main.py` lines
174-201): emit the contacts and set the job COMPLETED. -/
def finalizeCommit (db1 : DB) (jid : Nat) (chosen : List (String × Nat)) : DB :=
  { db1 with
      finalContacts := db1.finalContacts ++
        buildContactsChosen db1.rawRows jid chosen
          (groupByEmail (validRowsOf db1 jid)),
      jobs := updateFirst (fun j => j.id = jid)
        (fun j => { j with status := JobStatus.COMPLETED }) db1.jobs }

def finalize_job (db : DB) (jid : Nat) : FinalizeResult :=
  match findJob db jid with
  | none => .clientError 404
  | some _ =>
      if 0 < openCount db jid then .clientError 409
      else
        match buildChosen db.issues db.resolutions jid with
        | none => .crash (clearedContacts db jid)
        | some chosen => .ok (finalizeCommit (clearedContacts db jid) jid chosen)

/-! ### `main.resolve_issue` (lines 205-312) -/

/-- Python string trimming of one supplied update value
(`main.py` lines 259-266): `v.strip() if v else None` — a missing or
null or empty-string value becomes null, any other value is trimmed
(a whitespace-only value hence becomes the empty string, not null). -/
def pyField (v : Option String) : Option String :=
  match v with
  | none => none
  | some s => if s = "" then none else some (pyStrip s)

/-- Application of the supplied partial update to the stored payload
(`main.py` lines 256-266): only supplied keys are touched. -/
def applyUpdate (d : RowData) (ue uf ul uc : Option (Option String)) : RowData :=
  { email := match ue with | some v => pyField v | none => d.email,
    firstName := match uf with | some v => pyField v | none => d.firstName,
    lastName := match ul with | some v => pyField v | none => d.lastName,
    company := match uc with | some v => pyField v | none => d.company }

/-- The recomputed `normalized_email` of the edit branch
(`main.py` lines 268-275): normalize when the updated email is truthy,
then keep it only when it passes the (spec-modelled) format check. -/
def editNormalizedEmail (updatedEmail : Option String) : Option String :=
  match
    (match updatedEmail with
     | none => none
     | some e => if e = "" then none else normalize_email (some e)) with
  | some ne => if is_valid_email_format ne then some ne else none
  | none => none

/-- The in-place row mutation of the edit branch (`main.py` lines
254-277), expressed on the row the update hits (the first row carrying
the id, which is the row the endpoint fetched). -/
def editRowFn (b : ResolveBody) (r : RawRow) : RawRow :=
  { r with
      data := applyUpdate r.data b.updEmail b.updFirst b.updLast b.updCompany,
      normalizedEmail := editNormalizedEmail
        (applyUpdate r.data b.updEmail b.updFirst b.updLast b.updCompany).email,
      isValid := true }

def editApply (db : DB) (rid : Nat) (b : ResolveBody) : DB :=
  { db with rawRows := updateFirst (fun r => r.id = rid) (editRowFn b) db.rawRows }

/-- The optional row invalidation of the skip branch (`main.py` lines
228-232): a missing, zero or foreign row id is silently ignored. -/
def skipRowUpdate (db : DB) (appId : Nat) (rowId : Option Nat) : DB :=
  match rowId with
  | some rid =>
      if rid = 0 then db
      else
        match findRow db rid with
        | some row =>
            if row.jobId = appId then
              { db with rawRows := (updateFirst (fun r => r.id = rid)
                  (fun r => { r with isValid := false }) db.rawRows) }
            else db
        | none => db
  | none => db

/-- Record the resolution parameters (upsert) and transition the issue to
RESOLVED — the common tail of all three action branches. -/
def recordAndResolve (db : DB) (iid : Nat) (p : ResolutionPayload) : DB :=
  setIssueResolved (upsertResolution db iid p) iid

/-- `main.resolve_issue`: `.error` is a raised `HTTPException` (status
code), committed state unchanged. -/
def resolve_issue (db : DB) (issueId : Nat) (body : ResolveBody) :
    Except Nat DB :=
  match findIssue db issueId with
  | none => .error 404
  | some issue =>
      match findJob db issue.jobId with
      | none => .error 404
      | some app =>
          if issue.status = IssueStatus.RESOLVED then .error 409
          else if body.action = "skip" then
            .ok (recordAndResolve (skipRowUpdate db app.id body.rowId)
              issue.id (.skip body.rowId))
          else if body.action = "edit" then
            match body.rowId, body.hasUpdatedData with
            | some rid, true =>
                if rid = 0 then .error 400
                else
                  match findRow db rid with
                  | none => .error 400
                  | some row =>
                      if row.jobId ≠ app.id then .error 400
                      else
                        .ok (recordAndResolve (editApply db rid body) issue.id
                          (.edit rid body.updEmail body.updFirst
                             body.updLast body.updCompany))
            | _, _ => .error 400
          else if body.action = "choose" then
            match body.chosenRowId with
            | some crid =>
                if crid = 0 then .error 400
                else
                  match findRow db crid with
                  | none => .error 400
                  | some rr =>
                      if rr.jobId ≠ app.id then .error 400
                      else
                        .ok (recordAndResolve db issue.id (.choose crid))
            | none => .error 400
          else .error 400

/-! ### Generic helper lemmas -/

theorem foldl_inv {σ α : Type _} (f : σ → α → σ) (P : σ → Prop)
    (hstep : ∀ s a, P s → P (f s a)) :
    ∀ (l : List α) (s : σ), P s → P (l.foldl f s)
  | [], _, hs => hs
  | a :: t, s, hs => foldl_inv f P hstep t (f s a) (hstep s a hs)

theorem findFirst_eq_none {α : Type _} {p : α → Prop} [DecidablePred p] :
    ∀ {l : List α}, findFirst p l = none ↔ ∀ x ∈ l, ¬ p x
  | [] => by simp [findFirst]
  | x :: t => by
      by_cases h : p x
      · simp [findFirst, h]
      · simp only [findFirst, if_neg h]
        rw [findFirst_eq_none]
        constructor
        · intro ht y hy
          rcases List.mem_cons.mp hy with rfl | hy'
          · exact h
          · exact ht y hy'
        · intro hall y hy
          exact hall y (List.mem_cons_of_mem _ hy)

theorem findFirst_mem {α : Type _} {p : α → Prop} [DecidablePred p] :
    ∀ {l : List α} {x : α}, findFirst p l = some x → x ∈ l ∧ p x
  | [], x, h => by simp [findFirst] at h
  | a :: t, x, h => by
      by_cases ha : p a
      · simp only [findFirst, if_pos ha, Option.some.injEq] at h
        exact ⟨h ▸ List.mem_cons_self a t, h ▸ ha⟩
      · simp only [findFirst, if_neg ha] at h
        obtain ⟨hm, hp⟩ := findFirst_mem h
        exact ⟨List.mem_cons_of_mem _ hm, hp⟩

theorem updateFirst_map_eq {α β : Type _} {p : α → Prop} [DecidablePred p]
    {f : α → α} {g : α → β} (hg : ∀ a, g (f a) = g a) :
    ∀ l : List α, (updateFirst p f l).map g = l.map g
  | [] => rfl
  | x :: t => by
      by_cases h : p x
      · simp [updateFirst, h, hg]
      · simp [updateFirst, h, updateFirst_map_eq hg t]

theorem findFirst_updateFirst {α : Type _} {p : α → Prop} [DecidablePred p]
    {f : α → α} (hp : ∀ a, p (f a) ↔ p a) :
    ∀ l : List α, findFirst p (updateFirst p f l) = (findFirst p l).map f
  | [] => rfl
  | x :: t => by
      by_cases h : p x
      · simp [updateFirst, findFirst, h, (hp x).mpr h]
      · have : ¬ p x := h
        simp [updateFirst, findFirst, h, findFirst_updateFirst hp t]

theorem updateFirst_idem {α : Type _} {p : α → Prop} [DecidablePred p]
    {f : α → α} (hp : ∀ a, p (f a) ↔ p a) (hf : ∀ a, f (f a) = f a) :
    ∀ l : List α, updateFirst p f (updateFirst p f l) = updateFirst p f l
  | [] => rfl
  | x :: t => by
      by_cases h : p x
      · simp [updateFirst, h, (hp x).mpr h, hf]
      · simp [updateFirst, h, updateFirst_idem hp hf t]

theorem updateFirst_mem_of_unique {α β : Type _} {p : α → Prop} [DecidablePred p]
    {f : α → α} {g : α → β} (hpg : ∀ a b, p a → p b → g a = g b) :
    ∀ {l : List α}, (l.map g).Nodup → ∀ {i : α}, i ∈ l → p i →
      f i ∈ updateFirst p f l := by
  intro l
  induction l with
  | nil => intro _ i hi; simp at hi
  | cons x t ih =>
      intro hnd i hi hp
      rcases List.mem_cons.mp hi with rfl | hit
      · simp [updateFirst, if_pos hp]
      · by_cases hx : p x
        · exfalso
          have hkey : g x = g i := hpg x i hx hp
          have : g i ∈ t.map g := List.mem_map_of_mem g hit
          simp only [List.map_cons, List.nodup_cons] at hnd
          exact hnd.1 (hkey ▸ this)
        · simp only [updateFirst, if_neg hx]
          have hnd' : (t.map g).Nodup := by
            simp only [List.map_cons, List.nodup_cons] at hnd
            exact hnd.2
          exact List.mem_cons_of_mem _ (ih hnd' hit hp)

theorem mem_updateFirst_of_mem {α : Type _} {p : α → Prop} [DecidablePred p]
    {f : α → α} :
    ∀ {l : List α} {i : α}, i ∈ l →
      i ∈ updateFirst p f l ∨ (p i ∧ f i ∈ updateFirst p f l) := by
  intro l
  induction l with
  | nil => intro i hi; simp at hi
  | cons x t ih =>
      intro i hi
      by_cases hx : p x
      · rcases List.mem_cons.mp hi with rfl | hit
        · exact Or.inr ⟨hx, by simp [updateFirst, if_pos hx]⟩
        · exact Or.inl (by simp only [updateFirst, if_pos hx]
                           exact List.mem_cons_of_mem _ hit)
      · rcases List.mem_cons.mp hi with rfl | hit
        · exact Or.inl (by simp [updateFirst, if_neg hx])
        · rcases ih hit with h | ⟨hp, h⟩
          · exact Or.inl (by simp only [updateFirst, if_neg hx]
                             exact List.mem_cons_of_mem _ h)
          · exact Or.inr ⟨hp, by simp only [updateFirst, if_neg hx]
                                 exact List.mem_cons_of_mem _ h⟩

theorem filter_idem {α : Type _} (p : α → Bool) :
    ∀ l : List α, (l.filter p).filter p = l.filter p
  | [] => rfl
  | x :: t => by
      by_cases h : p x
      · simp [List.filter, h, filter_idem p t]
      · simp only [List.filter, Bool.not_eq_true] at h ⊢
        simp [h, filter_idem p t]

theorem filter_eq_nil_of_all {α : Type _} {p : α → Bool} :
    ∀ {l : List α}, (∀ x ∈ l, p x = false) → l.filter p = []
  | [], _ => rfl
  | x :: t, h => by
      have hx := h x (List.mem_cons_self x t)
      simp only [List.filter, hx]
      exact filter_eq_nil_of_all (fun y hy => h y (List.mem_cons_of_mem _ hy))

/-! ### Issue-list preservation predicates -/

/-- The key of the uniqueness constraint `uq_issue_job_type_key`
(`models.py` lines 58-60). -/
def keyOf (i : Issue) : Nat × IssueType × String := (i.jobId, i.type, i.key)

/-- At most one issue per (job, type, key). -/
def uniqueIssueKeys (l : List Issue) : Prop := (l.map keyOf).Nodup

instance (l : List Issue) : Decidable (uniqueIssueKeys l) := by
  unfold uniqueIssueKeys
  infer_instance

/-- Every issue survives with identity, key and status untouched
(payload may change). -/
def issuesIntact (xs ys : List Issue) : Prop :=
  ∀ i ∈ xs, ∃ i' ∈ ys, i'.id = i.id ∧ i'.jobId = i.jobId ∧ i'.type = i.type ∧
    i'.key = i.key ∧ i'.status = i.status

/-- Every RESOLVED issue survives RESOLVED. -/
def resolvedSurvives (xs ys : List Issue) : Prop :=
  ∀ i ∈ xs, i.status = IssueStatus.RESOLVED →
    ∃ i' ∈ ys, i'.id = i.id ∧ i'.key = i.key ∧
      i'.status = IssueStatus.RESOLVED

theorem issuesIntact_refl (xs : List Issue) : issuesIntact xs xs :=
  fun i hi => ⟨i, hi, rfl, rfl, rfl, rfl, rfl⟩

theorem issuesIntact_trans {xs ys zs : List Issue}
    (h1 : issuesIntact xs ys) (h2 : issuesIntact ys zs) : issuesIntact xs zs := by
  intro i hi
  obtain ⟨j, hj, e1, e2, e3, e4, e5⟩ := h1 i hi
  obtain ⟨k, hk, f1, f2, f3, f4, f5⟩ := h2 j hj
  exact ⟨k, hk, f1.trans e1, f2.trans e2, f3.trans e3, f4.trans e4, f5.trans e5⟩

theorem issuesIntact_of_eq {xs ys : List Issue} (h : ys = xs) :
    issuesIntact xs ys := h ▸ issuesIntact_refl xs

theorem issuesIntact_append (xs m : List Issue) : issuesIntact xs (xs ++ m) :=
  fun i hi => ⟨i, List.mem_append_left m hi, rfl, rfl, rfl, rfl, rfl⟩

theorem issuesIntact_updateFirst {p : Issue → Prop} [DecidablePred p]
    {f : Issue → Issue}
    (hf : ∀ a, (f a).id = a.id ∧ (f a).jobId = a.jobId ∧ (f a).type = a.type ∧
      (f a).key = a.key ∧ (f a).status = a.status)
    (l : List Issue) : issuesIntact l (updateFirst p f l) := by
  intro i hi
  rcases mem_updateFirst_of_mem (p := p) (f := f) hi with h | ⟨_, h⟩
  · exact ⟨i, h, rfl, rfl, rfl, rfl, rfl⟩
  · obtain ⟨e1, e2, e3, e4, e5⟩ := hf i
    exact ⟨f i, h, e1, e2, e3, e4, e5⟩

theorem resolvedSurvives_of_intact {xs ys : List Issue}
    (h : issuesIntact xs ys) : resolvedSurvives xs ys := by
  intro i hi hres
  obtain ⟨i', hi', e1, _, _, e4, e5⟩ := h i hi
  exact ⟨i', hi', e1, e4, e5 ▸ hres⟩

theorem resolvedSurvives_trans {xs ys zs : List Issue}
    (h1 : resolvedSurvives xs ys) (h2 : resolvedSurvives ys zs) :
    resolvedSurvives xs zs := by
  intro i hi hres
  obtain ⟨j, hj, e1, e2, e3⟩ := h1 i hi hres
  obtain ⟨k, hk, f1, f2, f3⟩ := h2 j hj e3
  exact ⟨k, hk, f1.trans e1, f2.trans e2, f3⟩

/-- Marking any first-matching issue RESOLVED can only keep RESOLVED
issues RESOLVED. -/
theorem resolvedSurvives_mkResolved {p : Issue → Prop} [DecidablePred p]
    (l : List Issue) :
    resolvedSurvives l
      (updateFirst p (fun i => { i with status := IssueStatus.RESOLVED }) l) := by
  intro i hi hres
  rcases mem_updateFirst_of_mem
      (p := p) (f := fun i => { i with status := IssueStatus.RESOLVED }) hi with
    h | ⟨_, h⟩
  · exact ⟨i, h, rfl, rfl, hres⟩
  · exact ⟨{ i with status := IssueStatus.RESOLVED }, h, rfl, rfl, rfl⟩


/-! ### Frame lemmas for the pipeline operations -/

theorem setJob_frame (db : DB) (jid : Nat) (f : Job → Job) :
    (setJob db jid f).rawRows = db.rawRows ∧
    (setJob db jid f).issues = db.issues ∧
    (setJob db jid f).resolutions = db.resolutions ∧
    (setJob db jid f).finalContacts = db.finalContacts :=
  ⟨rfl, rfl, rfl, rfl⟩

theorem clearJobRows_frame (db : DB) (jid : Nat) :
    (clearJobRows db jid).jobs = db.jobs ∧
    (clearJobRows db jid).issues = db.issues ∧
    (clearJobRows db jid).resolutions = db.resolutions :=
  ⟨rfl, rfl, rfl⟩

theorem upsert_issue_frame (db : DB) (jid : Nat) (email : String)
    (cands : List Candidate) :
    (upsert_duplicate_issue db jid email cands).jobs = db.jobs ∧
    (upsert_duplicate_issue db jid email cands).rawRows = db.rawRows ∧
    (upsert_duplicate_issue db jid email cands).resolutions = db.resolutions ∧
    (upsert_duplicate_issue db jid email cands).finalContacts = db.finalContacts := by
  unfold upsert_duplicate_issue
  split <;> exact ⟨rfl, rfl, rfl, rfl⟩

theorem upsert_issue_intact (db : DB) (jid : Nat) (email : String)
    (cands : List Candidate) :
    issuesIntact db.issues (upsert_duplicate_issue db jid email cands).issues := by
  unfold upsert_duplicate_issue
  split
  · show issuesIntact db.issues (updateFirst (issueKeyMatch jid email)
      (fun i => { i with payload :=
        { email := email, candidates := cands } }) db.issues)
    apply issuesIntact_updateFirst
    intro a
    exact ⟨rfl, rfl, rfl, rfl, rfl⟩
  · exact issuesIntact_append db.issues _

theorem uniqueIssueKeys_updateFirst {p : Issue → Prop} [DecidablePred p]
    {f : Issue → Issue} (hf : ∀ a, keyOf (f a) = keyOf a) {l : List Issue}
    (h : uniqueIssueKeys l) : uniqueIssueKeys (updateFirst p f l) := by
  unfold uniqueIssueKeys at h ⊢
  rw [updateFirst_map_eq hf]
  exact h

theorem upsert_issue_unique (db : DB) (jid : Nat) (email : String)
    (cands : List Candidate) (h : uniqueIssueKeys db.issues) :
    uniqueIssueKeys (upsert_duplicate_issue db jid email cands).issues := by
  unfold upsert_duplicate_issue
  split
  · exact uniqueIssueKeys_updateFirst (p := issueKeyMatch jid email)
      (f := fun i => { i with payload :=
        { email := email, candidates := cands } })
      (fun a => rfl) h
  · rename_i hnone
    unfold uniqueIssueKeys
    rw [List.map_append, List.nodup_append]
    refine ⟨h, List.nodup_singleton _, ?_⟩
    intro k hk hk1
    obtain ⟨i, hi, hkeyi⟩ := List.mem_map.mp hk
    simp only [List.map_cons, List.map_nil, List.mem_singleton] at hk1
    have hkey2 : keyOf i = (jid, IssueType.DUPLICATE_EMAIL, email) := by
      rw [hkeyi, hk1]
      rfl
    unfold keyOf at hkey2
    simp only [Prod.mk.injEq] at hkey2
    exact findFirst_eq_none.mp hnone i hi ⟨hkey2.1, hkey2.2.1, hkey2.2.2⟩

theorem detectEmail_frame (jid : Nat) (eri : List (String × List Nat))
    (acc : DB × Nat) (g : String × List (String × String × String)) :
    (detectEmail jid eri acc g).1.jobs = acc.1.jobs ∧
    (detectEmail jid eri acc g).1.rawRows = acc.1.rawRows ∧
    (detectEmail jid eri acc g).1.resolutions = acc.1.resolutions ∧
    (detectEmail jid eri acc g).1.finalContacts = acc.1.finalContacts ∧
    issuesIntact acc.1.issues (detectEmail jid eri acc g).1.issues ∧
    (uniqueIssueKeys acc.1.issues →
      uniqueIssueKeys (detectEmail jid eri acc g).1.issues) := by
  unfold detectEmail
  split
  · obtain ⟨h1, h2, h3, h4⟩ := upsert_issue_frame acc.1 jid g.1 _
    exact ⟨h1, h2, h3, h4, upsert_issue_intact acc.1 jid g.1 _,
           upsert_issue_unique acc.1 jid g.1 _⟩
  · exact ⟨rfl, rfl, rfl, rfl, issuesIntact_refl _, fun h => h⟩

theorem auto_finalize_frame (db : DB) (jid : Nat) :
    ((auto_finalize_if_no_issues db jid).1).rawRows = db.rawRows ∧
    ((auto_finalize_if_no_issues db jid).1).issues = db.issues ∧
    ((auto_finalize_if_no_issues db jid).1).resolutions = db.resolutions := by
  unfold auto_finalize_if_no_issues
  split <;> exact ⟨rfl, rfl, rfl⟩

theorem finishJob_frame (jid : Nat) (db3 : DB) :
    (finishJob jid db3).rawRows = db3.rawRows ∧
    (finishJob jid db3).issues = db3.issues ∧
    (finishJob jid db3).resolutions = db3.resolutions := by
  unfold finishJob
  split
  · exact ⟨rfl, rfl, rfl⟩
  · exact auto_finalize_frame db3 jid

theorem ingestPhase_frame (jid : Nat) (db2 : DB) (records : List Record) :
    (ingestPhase jid db2 records).db.jobs = db2.jobs ∧
    (ingestPhase jid db2 records).db.issues = db2.issues ∧
    (ingestPhase jid db2 records).db.resolutions = db2.resolutions ∧
    (ingestPhase jid db2 records).db.finalContacts = db2.finalContacts := by
  unfold ingestPhase
  exact foldl_inv (ingestRecord jid)
    (fun s => s.db.jobs = db2.jobs ∧ s.db.issues = db2.issues ∧
      s.db.resolutions = db2.resolutions ∧ s.db.finalContacts = db2.finalContacts)
    (fun s a hs => hs) records _ ⟨rfl, rfl, rfl, rfl⟩

theorem detectPhase_frame (jid : Nat) (st : IngestState) :
    (detectPhase jid st).1.jobs = st.db.jobs ∧
    (detectPhase jid st).1.rawRows = st.db.rawRows ∧
    (detectPhase jid st).1.resolutions = st.db.resolutions ∧
    (detectPhase jid st).1.finalContacts = st.db.finalContacts ∧
    issuesIntact st.db.issues (detectPhase jid st).1.issues ∧
    (uniqueIssueKeys st.db.issues →
      uniqueIssueKeys (detectPhase jid st).1.issues) := by
  unfold detectPhase
  exact foldl_inv (detectEmail jid st.emailRowIds)
    (fun acc => acc.1.jobs = st.db.jobs ∧ acc.1.rawRows = st.db.rawRows ∧
      acc.1.resolutions = st.db.resolutions ∧
      acc.1.finalContacts = st.db.finalContacts ∧
      issuesIntact st.db.issues acc.1.issues ∧
      (uniqueIssueKeys st.db.issues → uniqueIssueKeys acc.1.issues))
    (fun s a hs => by
      obtain ⟨h1, h2, h3, h4, h5, h6⟩ := detectEmail_frame jid st.emailRowIds s a
      exact ⟨h1.trans hs.1, h2.trans hs.2.1, h3.trans hs.2.2.1,
        h4.trans hs.2.2.2.1,
        issuesIntact_trans hs.2.2.2.2.1 h5,
        fun hu => h6 (hs.2.2.2.2.2 hu)⟩)
    st.emailSigs (st.db, 0) ⟨rfl, rfl, rfl, rfl, issuesIntact_refl _, fun h => h⟩

theorem statusPhase_frame (jid : Nat) (st : IngestState) (det : DB × Nat) :
    (statusPhase jid st det).rawRows = det.1.rawRows ∧
    (statusPhase jid st det).issues = det.1.issues ∧
    (statusPhase jid st det).resolutions = det.1.resolutions := by
  unfold statusPhase
  have h := finishJob_frame jid (setJob det.1 jid (fun j =>
    { j with totalRows := st.total, validRows := st.valid,
             invalidRows := st.invalid, conflictCount := det.2 }))
  exact ⟨h.1, h.2.1, h.2.2⟩

theorem pipelineCore_frame (db2 : DB) (jid : Nat) (records : List Record) :
    (pipelineCore db2 jid records).resolutions = db2.resolutions ∧
    issuesIntact db2.issues (pipelineCore db2 jid records).issues ∧
    (uniqueIssueKeys db2.issues →
      uniqueIssueKeys (pipelineCore db2 jid records).issues) := by
  obtain ⟨g1, g2, g3, g4⟩ := ingestPhase_frame jid db2 records
  obtain ⟨d1, d2, d3, d4, d5, d6⟩ :=
    detectPhase_frame jid (ingestPhase jid db2 records)
  obtain ⟨s1, s2, s3⟩ := statusPhase_frame jid (ingestPhase jid db2 records)
    (detectPhase jid (ingestPhase jid db2 records))
  unfold pipelineCore
  refine ⟨s3.trans (d3.trans g3), ?_, ?_⟩
  · rw [g2] at d5
    exact issuesIntact_trans d5 (issuesIntact_of_eq s2)
  · intro hu
    rw [g2] at d6
    have h2 := d6 hu
    rw [← s2] at h2
    exact h2

/-- Frame of a full `process_job` run: a run never touches resolutions,
keeps every issue with its identity, key and status (only payloads
change), and preserves the issue-key uniqueness invariant — both for a
completed run and for the committed state carried by a raised
exception. -/
theorem process_job_frame (db : DB) (jid : Nat) (file : Option (List Record)) :
    (∀ db', process_job db jid file = .ok db' →
      db'.resolutions = db.resolutions ∧ issuesIntact db.issues db'.issues ∧
      (uniqueIssueKeys db.issues → uniqueIssueKeys db'.issues)) ∧
    (∀ msg dbp, process_job db jid file = .error (msg, dbp) →
      dbp.resolutions = db.resolutions ∧ issuesIntact db.issues dbp.issues ∧
      (uniqueIssueKeys db.issues → uniqueIssueKeys dbp.issues)) := by
  constructor
  · intro db' h
    unfold process_job at h
    split at h
    · cases h
      exact ⟨rfl, issuesIntact_refl _, fun h => h⟩
    · split at h
      · cases h
        exact ⟨rfl, issuesIntact_refl _, fun h => h⟩
      · split at h
        · exact Except.noConfusion h
        · cases h
          exact pipelineCore_frame (preparedDB db jid) jid _
  · intro msg dbp h
    unfold process_job at h
    split at h
    · exact Except.noConfusion h
    · split at h
      · exact Except.noConfusion h
      · split at h
        · cases h
          exact ⟨rfl, issuesIntact_refl _, fun h => h⟩
        · exact Except.noConfusion h

/-! ### Frame lemmas for the resolution endpoint -/

theorem upsertResolution_frame (db : DB) (iid : Nat) (p : ResolutionPayload) :
    (upsertResolution db iid p).jobs = db.jobs ∧
    (upsertResolution db iid p).rawRows = db.rawRows ∧
    (upsertResolution db iid p).issues = db.issues ∧
    (upsertResolution db iid p).finalContacts = db.finalContacts := by
  unfold upsertResolution
  split <;> exact ⟨rfl, rfl, rfl, rfl⟩

theorem recordAndResolve_resolved (db : DB) (iid : Nat) (p : ResolutionPayload) :
    resolvedSurvives db.issues (recordAndResolve db iid p).issues := by
  unfold recordAndResolve setIssueResolved
  obtain ⟨_, _, h3, _⟩ := upsertResolution_frame db iid p
  dsimp only
  rw [h3]
  exact resolvedSurvives_mkResolved _

theorem skipRowUpdate_frame (db : DB) (appId : Nat) (rowId : Option Nat) :
    (skipRowUpdate db appId rowId).jobs = db.jobs ∧
    (skipRowUpdate db appId rowId).issues = db.issues ∧
    (skipRowUpdate db appId rowId).resolutions = db.resolutions := by
  unfold skipRowUpdate
  split
  · split
    · exact ⟨rfl, rfl, rfl⟩
    · split
      · split
        · exact ⟨rfl, rfl, rfl⟩
        · exact ⟨rfl, rfl, rfl⟩
      · exact ⟨rfl, rfl, rfl⟩
  · exact ⟨rfl, rfl, rfl⟩

theorem editApply_frame (db : DB) (rid : Nat) (b : ResolveBody) :
    (editApply db rid b).jobs = db.jobs ∧
    (editApply db rid b).issues = db.issues ∧
    (editApply db rid b).resolutions = db.resolutions :=
  ⟨rfl, rfl, rfl⟩

theorem recordAndResolve_rawRows (db : DB) (iid : Nat) (p : ResolutionPayload) :
    (recordAndResolve db iid p).rawRows = db.rawRows := by
  unfold recordAndResolve setIssueResolved
  exact (upsertResolution_frame db iid p).2.1

/-! ## Claim C10 -/

/-- C10: for a queue message whose job id matches no stored Job,
`process_job` returns immediately with the database untouched, and the
worker loop still acknowledges (deletes) the message as a success, never
marking anything FAILED. -/
theorem C10_unknown_job_message_consumed_silently (db : DB) (m : QueueMsg)
    (h : findJob db m.jobId = none) :
    process_job db m.jobId m.file = .ok db ∧ workerStep db m = (db, true) := by
  have h1 : process_job db m.jobId m.file = .ok db := by
    unfold process_job
    rw [h]
  refine ⟨h1, ?_⟩
  unfold workerStep
  rw [h1]

def exDb10 : DB :=
  { jobs := [], rawRows := [], issues := [], resolutions := [],
    finalContacts := [], nextRowId := 1, nextIssueId := 1 }

/-- Witness for C10 at a concrete database and message. -/
theorem C10_witness :
    process_job exDb10 5 none = .ok exDb10 ∧
    workerStep exDb10 ⟨5, none⟩ = (exDb10, true) :=
  C10_unknown_job_message_consumed_silently exDb10 ⟨5, none⟩ (by decide)

/-! ## Claim C4 -/

/-- C4: the claim describes the Row Validator of the specification (strip
a trailing parenthetical annotation, then a structural format check) and
of the repository's own test suite, but the shipped code does neither:
`worker.normalize_email` keeps the annotation (the test
`test_normalize_email` expects `"user@example.com (work)"` to normalize
to `"user@example.com"`), the ingestion loop accepts the annotated
string and even an address containing the illegal separator `;` as
valid, and the structural checker `is_valid_email_format` that the tests
and the resolution endpoint import from the worker module is not defined
anywhere in the source. The spec-modelled checker (faithful to the test
suite) rejects the `;` address the inline check accepts. -/
theorem C4_code_validator_diverges_from_spec_and_tests :
    normalize_email (some "user@example.com (work)") =
      some "user@example.com (work)" ∧
    rowValidationErrors (normalize_email (some "user@example.com (work)")) = [] ∧
    rowValidationErrors
      (normalize_email (some "john@example.com;other@example.com")) = [] ∧
    is_valid_email_format "john@example.com;other@example.com" = false := by
  decide

/-! ## Claim C1 -/

def exJob1 : Job :=
  { id := 1, status := JobStatus.NEEDS_REVIEW, totalRows := 2, validRows := 2,
    invalidRows := 0, conflictCount := 1, errorMessage := none }

def exRow1a : RawRow :=
  { id := 1, jobId := 1, rowNumber := 2,
    data := { email := some "bob@x.com", firstName := some "Bob",
              lastName := some "B", company := some "Co1" },
    normalizedEmail := some "bob@x.com", isValid := true,
    validationErrors := [] }

def exRow1b : RawRow :=
  { id := 2, jobId := 1, rowNumber := 3,
    data := { email := some "bob@x.com", firstName := some "Robert",
              lastName := some "B", company := some "Co2" },
    normalizedEmail := some "bob@x.com", isValid := true,
    validationErrors := [] }

def exIss1 : Issue :=
  { id := 1, jobId := 1, type := IssueType.DUPLICATE_EMAIL,
    status := IssueStatus.RESOLVED, key := "bob@x.com",
    payload := { email := "bob@x.com", candidates := [] } }

/-- A job whose only duplicate-email issue was resolved with the `skip`
action: zero OPEN issues remain. -/
def exDb1 : DB :=
  { jobs := [exJob1], rawRows := [exRow1a, exRow1b], issues := [exIss1],
    resolutions := [⟨1, ResolutionPayload.skip (some 2)⟩],
    finalContacts := [], nextRowId := 3, nextIssueId := 2 }

/-- C1: the claim (with the spec) says an `edit` or `skip` resolution does
not prevent finalization — the email's remaining valid row serves as the
de-facto source.  The code instead reads `data["chosen_row_id"]` from
every duplicate-email resolution (`main.py` line 172), which raises an
uncaught `KeyError` for a `skip` (or `edit`) resolution: finalize fails
with a server error after the previous `FinalContact` rows were already
deleted and committed, and emits no contacts at all. -/
theorem C1_finalize_crashes_on_skip_resolution :
    finalize_job exDb1 1 = FinalizeResult.crash exDb1 ∧
    openCount exDb1 1 = 0 := by
  decide

/-! ## Claim C2 -/

/-- C2: detection upserts keep at most one Issue per (job, type, key);
re-running detection for a key that already has an Issue rewrites that
Issue's payload with the latest candidate snapshot while leaving its id
and status (in particular RESOLVED) untouched — whatever the new
candidate rows are — and a whole `process_job` pass preserves the
uniqueness invariant. -/
theorem C2_issue_upsert_unique_no_reopen (db : DB) (jid : Nat)
    (email : String) (cands : List Candidate)
    (h : uniqueIssueKeys db.issues) :
    uniqueIssueKeys (upsert_duplicate_issue db jid email cands).issues ∧
    (∀ i ∈ db.issues, issueKeyMatch jid email i →
      ({ i with payload := { email := email, candidates := cands } } : Issue) ∈
        (upsert_duplicate_issue db jid email cands).issues) ∧
    (∀ file db', process_job db jid file = .ok db' →
      uniqueIssueKeys db'.issues) := by
  refine ⟨upsert_issue_unique db jid email cands h, ?_, ?_⟩
  · intro i hi hp
    unfold upsert_duplicate_issue
    cases hfind : findFirst (issueKeyMatch jid email) db.issues with
    | none => exact absurd hp (findFirst_eq_none.mp hfind i hi)
    | some ex =>
        show _ ∈ (updateFirst (issueKeyMatch jid email)
          (fun i => { i with payload :=
            { email := email, candidates := cands } }) db.issues)
        exact updateFirst_mem_of_unique (g := keyOf)
          (fun a b ha hb => by
            unfold issueKeyMatch at ha hb
            unfold keyOf
            rw [ha.1, ha.2.1, ha.2.2, hb.1, hb.2.1, hb.2.2])
          h hi hp
  · intro file db' hok
    exact ((process_job_frame db jid file).1 db' hok).2.2 h

def exIss2 : Issue :=
  { id := 1, jobId := 1, type := IssueType.DUPLICATE_EMAIL,
    status := IssueStatus.RESOLVED, key := "bob@x.com",
    payload := { email := "bob@x.com", candidates := [] } }

def exDb2 : DB :=
  { jobs := [], rawRows := [], issues := [exIss2], resolutions := [],
    finalContacts := [], nextRowId := 1, nextIssueId := 2 }

def exCand2 : Candidate :=
  { rawRowId := 7, rowNumber := 2,
    data := { email := some "bob@x.com", firstName := some "Bob",
              lastName := some "B", company := some "Co9" } }

/-- Witness for C2: a re-detected conflict on an email whose issue is
already RESOLVED rewrites the payload and keeps the issue RESOLVED. -/
theorem C2_witness :
    uniqueIssueKeys (upsert_duplicate_issue exDb2 1 "bob@x.com" [exCand2]).issues ∧
    ({ exIss2 with payload :=
        { email := "bob@x.com", candidates := [exCand2] } } : Issue) ∈
      (upsert_duplicate_issue exDb2 1 "bob@x.com" [exCand2]).issues :=
  ⟨(C2_issue_upsert_unique_no_reopen exDb2 1 "bob@x.com" [exCand2] (by decide)).1,
   (C2_issue_upsert_unique_no_reopen exDb2 1 "bob@x.com" [exCand2] (by decide)).2.1
     exIss2 (by decide) (by exact ⟨rfl, rfl, rfl⟩)⟩

/-! ## Claim C8 -/

/-- C8: before processing, ingestion deletes exactly the job's RawRow and
FinalContact records (rows of other jobs survive, issues and resolutions
are untouched by the cleanup), and a whole `process_job` pass — complete
or aborted by an exception — never changes any IssueResolution and keeps
every prior Issue with its identity, key and status, so human resolution
decisions survive reprocessing of a redelivered message. -/
theorem C8_ingestion_deletes_rows_keeps_decisions :
    (∀ db jid,
      (∀ r ∈ (clearJobRows db jid).rawRows, r.jobId ≠ jid) ∧
      (∀ c ∈ (clearJobRows db jid).finalContacts, c.jobId ≠ jid) ∧
      (∀ r ∈ db.rawRows, r.jobId ≠ jid → r ∈ (clearJobRows db jid).rawRows) ∧
      (∀ c ∈ db.finalContacts, c.jobId ≠ jid →
        c ∈ (clearJobRows db jid).finalContacts) ∧
      (clearJobRows db jid).issues = db.issues ∧
      (clearJobRows db jid).resolutions = db.resolutions ∧
      (clearJobRows db jid).jobs = db.jobs) ∧
    (∀ db jid file db', process_job db jid file = .ok db' →
      db'.resolutions = db.resolutions ∧ issuesIntact db.issues db'.issues) ∧
    (∀ db jid file msg dbp, process_job db jid file = .error (msg, dbp) →
      dbp.resolutions = db.resolutions ∧ issuesIntact db.issues dbp.issues) := by
  refine ⟨?_, ?_, ?_⟩
  · intro db jid
    refine ⟨?_, ?_, ?_, ?_, rfl, rfl, rfl⟩
    · intro r hr
      have := List.mem_filter.mp hr
      simpa using this.2
    · intro c hc
      have := List.mem_filter.mp hc
      simpa using this.2
    · intro r hr hne
      exact List.mem_filter.mpr ⟨hr, by simpa using hne⟩
    · intro c hc hne
      exact List.mem_filter.mpr ⟨hc, by simpa using hne⟩
  · intro db jid file db' hok
    have := (process_job_frame db jid file).1 db' hok
    exact ⟨this.1, this.2.1⟩
  · intro db jid file msg dbp herr
    have := (process_job_frame db jid file).2 msg dbp herr
    exact ⟨this.1, this.2.1⟩

def exJob8 : Job :=
  { id := 1, status := JobStatus.NEEDS_REVIEW, totalRows := 1, validRows := 1,
    invalidRows := 0, conflictCount := 0, errorMessage := none }

def exRow8other : RawRow :=
  { id := 9, jobId := 2, rowNumber := 2,
    data := { email := some "z@q.com", firstName := none, lastName := none,
              company := none },
    normalizedEmail := some "z@q.com", isValid := true, validationErrors := [] }

def exDb8 : DB :=
  { jobs := [exJob8],
    rawRows := [{ id := 1, jobId := 1, rowNumber := 2,
                  data := { email := some "a@b.com", firstName := none,
                            lastName := none, company := none },
                  normalizedEmail := some "a@b.com", isValid := true,
                  validationErrors := [] }, exRow8other],
    issues := [], resolutions := [⟨3, ResolutionPayload.choose 4⟩],
    finalContacts := [], nextRowId := 10, nextIssueId := 1 }

/-- Witness for C8: the other job's row survives the cleanup, and an
aborted reprocessing run (storage fetch failure) leaves the recorded
resolutions unchanged. -/
theorem C8_witness :
    exRow8other ∈ (clearJobRows exDb8 1).rawRows ∧
    (preparedDB exDb8 1).resolutions = exDb8.resolutions :=
  ⟨((C8_ingestion_deletes_rows_keeps_decisions).1 exDb8 1).2.2.1 exRow8other
     (by decide) (by decide),
   ((C8_ingestion_deletes_rows_keeps_decisions).2.2 exDb8 1 none
     "download_bytes failed" (preparedDB exDb8 1) rfl).1⟩

/-! ## Claim C3 -/

/-- Destructuring a successful finalize run. -/
theorem finalize_ok_elim (db : DB) (jid : Nat) (db' : DB)
    (h : finalize_job db jid = .ok db') :
    ∃ j chosen, findJob db jid = some j ∧ ¬ 0 < openCount db jid ∧
      buildChosen db.issues db.resolutions jid = some chosen ∧
      db' = finalizeCommit (clearedContacts db jid) jid chosen := by
  unfold finalize_job at h
  split at h
  · exact FinalizeResult.noConfusion h
  · rename_i j hj
    split at h
    · exact FinalizeResult.noConfusion h
    · rename_i hopen
      split at h
      · exact FinalizeResult.noConfusion h
      · rename_i chosen hch
        cases h
        exact ⟨j, chosen, hj, hopen, hch, rfl⟩

/-- Destructuring a crashed finalize run. -/
theorem finalize_crash_elim (db : DB) (jid : Nat) (dbp : DB)
    (h : finalize_job db jid = .crash dbp) :
    ∃ j, findJob db jid = some j ∧ ¬ 0 < openCount db jid ∧
      buildChosen db.issues db.resolutions jid = none ∧
      dbp = clearedContacts db jid := by
  unfold finalize_job at h
  split at h
  · exact FinalizeResult.noConfusion h
  · rename_i j hj
    split at h
    · exact FinalizeResult.noConfusion h
    · rename_i hopen
      split at h
      · cases h
        exact ⟨j, hj, hopen, by assumption, rfl⟩
      · exact FinalizeResult.noConfusion h

/-- Branch analysis for a successful resolution run: the result is always
`recordAndResolve` applied to a database whose issue list equals the
input's. -/
theorem resolve_ok_resolvedSurvives (db : DB) (iid : Nat) (body : ResolveBody)
    (db' : DB) (h : resolve_issue db iid body = .ok db') :
    resolvedSurvives db.issues db'.issues := by
  unfold resolve_issue at h
  split at h
  · exact Except.noConfusion h
  · rename_i issue hissue
    split at h
    · exact Except.noConfusion h
    · rename_i app happ
      split at h
      · exact Except.noConfusion h
      · split at h
        · -- skip branch
          cases h
          have hsur := recordAndResolve_resolved
            (skipRowUpdate db app.id body.rowId) issue.id (.skip body.rowId)
          rwa [(skipRowUpdate_frame db app.id body.rowId).2.1] at hsur
        · split at h
          · -- edit branch
            split at h
            · rename_i rid heqm1 heqm2
              split at h
              · exact Except.noConfusion h
              · split at h
                · exact Except.noConfusion h
                · rename_i row hrow
                  split at h
                  · exact Except.noConfusion h
                  · cases h
                    exact recordAndResolve_resolved (editApply db rid body)
                      issue.id (.edit rid body.updEmail body.updFirst
                        body.updLast body.updCompany)
            · exact Except.noConfusion h
          · split at h
            · -- choose branch
              split at h
              · rename_i crid heqc
                split at h
                · exact Except.noConfusion h
                · split at h
                  · exact Except.noConfusion h
                  · split at h
                    · exact Except.noConfusion h
                    · cases h
                      exact recordAndResolve_resolved db issue.id (.choose crid)
              · exact Except.noConfusion h
            · exact Except.noConfusion h

/-- C3: resolving is one-shot and terminal.  A resolution request against
an already-RESOLVED issue (whose job exists) is rejected with the 409
conflict error — the endpoint raises before any mutation, so the
database is returned unchanged by construction — and no operation of the
system (issue upsert, a full ingestion pass, automatic or explicit
finalization, or a successful resolution) ever moves a RESOLVED issue
back to OPEN. -/
theorem C3_resolution_one_shot_terminal :
    (∀ db iid body issue app, findIssue db iid = some issue →
      findJob db issue.jobId = some app →
      issue.status = IssueStatus.RESOLVED →
      resolve_issue db iid body = .error 409) ∧
    (∀ db jid email cands, resolvedSurvives db.issues
      (upsert_duplicate_issue db jid email cands).issues) ∧
    (∀ db jid file db', process_job db jid file = .ok db' →
      resolvedSurvives db.issues db'.issues) ∧
    (∀ db jid file msg dbp, process_job db jid file = .error (msg, dbp) →
      resolvedSurvives db.issues dbp.issues) ∧
    (∀ db jid, resolvedSurvives db.issues
      ((auto_finalize_if_no_issues db jid).1).issues) ∧
    (∀ db jid db', finalize_job db jid = .ok db' → db'.issues = db.issues) ∧
    (∀ db jid dbp, finalize_job db jid = .crash dbp → dbp.issues = db.issues) ∧
    (∀ db iid body db', resolve_issue db iid body = .ok db' →
      resolvedSurvives db.issues db'.issues) := by
  refine ⟨?_, ?_, ?_, ?_, ?_, ?_, ?_, resolve_ok_resolvedSurvives⟩
  · intro db iid body issue app h1 h2 h3
    unfold resolve_issue
    rw [h1]
    dsimp only
    rw [h2]
    dsimp only
    rw [if_pos h3]
  · intro db jid email cands
    exact resolvedSurvives_of_intact (upsert_issue_intact db jid email cands)
  · intro db jid file db' hok
    exact resolvedSurvives_of_intact ((process_job_frame db jid file).1 db' hok).2.1
  · intro db jid file msg dbp herr
    exact resolvedSurvives_of_intact
      ((process_job_frame db jid file).2 msg dbp herr).2.1
  · intro db jid
    exact resolvedSurvives_of_intact
      (issuesIntact_of_eq (auto_finalize_frame db jid).2.1)
  · intro db jid db' hok
    obtain ⟨j, chosen, _, _, _, rfl⟩ := finalize_ok_elim db jid db' hok
    rfl
  · intro db jid dbp hcr
    obtain ⟨j, _, _, _, rfl⟩ := finalize_crash_elim db jid dbp hcr
    rfl

def exIss3 : Issue :=
  { id := 1, jobId := 1, type := IssueType.DUPLICATE_EMAIL,
    status := IssueStatus.RESOLVED, key := "a@b.com",
    payload := { email := "a@b.com", candidates := [] } }

def exJob3 : Job :=
  { id := 1, status := JobStatus.NEEDS_REVIEW, totalRows := 0, validRows := 0,
    invalidRows := 0, conflictCount := 0, errorMessage := none }

def exDb3 : DB :=
  { jobs := [exJob3], rawRows := [], issues := [exIss3],
    resolutions := [⟨1, ResolutionPayload.choose 2⟩], finalContacts := [],
    nextRowId := 1, nextIssueId := 2 }

def exBody3 : ResolveBody :=
  { action := "choose", chosenRowId := some 2, rowId := none,
    updEmail := none, updFirst := none, updLast := none, updCompany := none,
    hasUpdatedData := false }

/-- Witness for C3: a second resolution attempt against a RESOLVED issue
is rejected with 409, and an upsert on its key keeps it RESOLVED. -/
theorem C3_witness :
    resolve_issue exDb3 1 exBody3 = .error 409 ∧
    resolvedSurvives exDb3.issues
      (upsert_duplicate_issue exDb3 1 "a@b.com" []).issues :=
  ⟨(C3_resolution_one_shot_terminal).1 exDb3 1 exBody3 exIss3 exJob3
     (by decide) (by decide) rfl,
   (C3_resolution_one_shot_terminal).2.1 exDb3 1 "a@b.com" []⟩

/-! ## Claim C9 -/

def exJob9 : Job :=
  { id := 1, status := JobStatus.NEEDS_REVIEW, totalRows := 0, validRows := 0,
    invalidRows := 0, conflictCount := 0, errorMessage := none }

def exJob9b : Job :=
  { id := 2, status := JobStatus.NEEDS_REVIEW, totalRows := 1, validRows := 1,
    invalidRows := 0, conflictCount := 0, errorMessage := none }

def exIss9 : Issue :=
  { id := 1, jobId := 1, type := IssueType.DUPLICATE_EMAIL,
    status := IssueStatus.OPEN, key := "a@b.com",
    payload := { email := "a@b.com", candidates := [] } }

/-- A row belonging to job 2, not to job 1. -/
def exRow9foreign : RawRow :=
  { id := 99, jobId := 2, rowNumber := 2,
    data := { email := some "z@q.com", firstName := none, lastName := none,
              company := none },
    normalizedEmail := some "z@q.com", isValid := true, validationErrors := [] }

def exDb9 : DB :=
  { jobs := [exJob9, exJob9b], rawRows := [exRow9foreign], issues := [exIss9],
    resolutions := [], finalContacts := [], nextRowId := 100, nextIssueId := 2 }

def exSkipForeign9 : ResolveBody :=
  { action := "skip", chosenRowId := none, rowId := some 99,
    updEmail := none, updFirst := none, updLast := none, updCompany := none,
    hasUpdatedData := false }

/-- C9 counterexample: a `skip` resolution request referencing a row that
belongs to a different job is an erroneous request by the claim's own
enumeration, yet the code accepts it, records the resolution (with the
foreign row id in its parameters) and transitions the issue to RESOLVED
— a state mutation, not a synchronous client-error rejection. -/
theorem C9_counterexample_skip_foreign_row_accepted :
    resolve_issue exDb9 1 exSkipForeign9 =
      .ok { exDb9 with
              issues := [{ exIss9 with status := IssueStatus.RESOLVED }],
              resolutions := [⟨1, ResolutionPayload.skip (some 99)⟩] } := by
  rfl

/-- A skip request whose optional row id is absent, zero, dangling or
foreign leaves the row table untouched. -/
theorem skipRowUpdate_foreign (db : DB) (appId : Nat) (rowId : Option Nat)
    (hf : ∀ rid, rowId = some rid → ∀ row, findRow db rid = some row →
      row.jobId ≠ appId) :
    skipRowUpdate db appId rowId = db := by
  unfold skipRowUpdate
  split
  · rename_i rid
    split
    · rfl
    · split
      · rename_i row hrow
        rw [if_neg (hf rid rfl row hrow)]
      · rfl
  · rfl

/-- C9 (amended): with an existing, still-open issue whose job exists, an
unknown action, missing required parameters for `choose` or `edit`, or a
row referenced by `choose` or `edit` that is dangling or belongs to a
different job are all rejected synchronously with a 400 client error
(the endpoint raises before mutating, so the state is unchanged); a
`skip` request, however, always succeeds — a foreign or dangling row id
is silently ignored (rows untouched) while the issue is still resolved. -/
theorem C9_request_validation_except_skip (db : DB) (iid : Nat)
    (body : ResolveBody) (issue : Issue) (app : Job)
    (h1 : findIssue db iid = some issue)
    (h2 : findJob db issue.jobId = some app)
    (h3 : issue.status ≠ IssueStatus.RESOLVED) :
    (body.action ≠ "skip" → body.action ≠ "edit" → body.action ≠ "choose" →
      resolve_issue db iid body = .error 400) ∧
    (body.action = "edit" →
      (body.rowId = none ∨ body.rowId = some 0 ∨ body.hasUpdatedData = false) →
      resolve_issue db iid body = .error 400) ∧
    (∀ rid, body.action = "edit" → body.rowId = some rid → rid ≠ 0 →
      body.hasUpdatedData = true →
      (∀ row, findRow db rid = some row → row.jobId ≠ app.id) →
      resolve_issue db iid body = .error 400) ∧
    (body.action = "choose" →
      (body.chosenRowId = none ∨ body.chosenRowId = some 0) →
      resolve_issue db iid body = .error 400) ∧
    (∀ crid, body.action = "choose" → body.chosenRowId = some crid → crid ≠ 0 →
      (∀ row, findRow db crid = some row → row.jobId ≠ app.id) →
      resolve_issue db iid body = .error 400) ∧
    (body.action = "skip" →
      (∀ rid, body.rowId = some rid → ∀ row, findRow db rid = some row →
        row.jobId ≠ app.id) →
      ∃ db', resolve_issue db iid body = .ok db' ∧ db'.rawRows = db.rawRows) := by
  have hred : resolve_issue db iid body =
      (if body.action = "skip" then
        Except.ok (recordAndResolve (skipRowUpdate db app.id body.rowId)
          issue.id (.skip body.rowId))
       else if body.action = "edit" then
        (match body.rowId, body.hasUpdatedData with
         | some rid, true =>
             if rid = 0 then .error 400
             else
               match findRow db rid with
               | none => .error 400
               | some row =>
                   if row.jobId ≠ app.id then .error 400
                   else
                     .ok (recordAndResolve (editApply db rid body) issue.id
                       (.edit rid body.updEmail body.updFirst
                          body.updLast body.updCompany))
         | _, _ => .error 400)
       else if body.action = "choose" then
        (match body.chosenRowId with
         | some crid =>
             if crid = 0 then .error 400
             else
               match findRow db crid with
               | none => .error 400
               | some rr =>
                   if rr.jobId ≠ app.id then .error 400
                   else .ok (recordAndResolve db issue.id (.choose crid))
         | none => .error 400)
       else .error 400) := by
    unfold resolve_issue
    rw [h1]
    dsimp only
    rw [h2]
    dsimp only
    rw [if_neg h3]
  refine ⟨?_, ?_, ?_, ?_, ?_, ?_⟩
  · intro ha1 ha2 ha3
    rw [hred, if_neg ha1, if_neg ha2, if_neg ha3]
  · intro ha hmiss
    have ha1 : body.action ≠ "skip" := by rw [ha]; decide
    rw [hred, if_neg ha1, if_pos ha]
    rcases hmiss with hm | hm | hm
    · rw [hm]
    · rw [hm]
      rcases hud : body.hasUpdatedData with _ | _ <;> simp
    · rw [hm]
      rcases hri : body.rowId with _ | rid <;> simp
  · intro rid ha hrid hne hud hforeign
    have ha1 : body.action ≠ "skip" := by rw [ha]; decide
    rw [hred, if_neg ha1, if_pos ha, hrid, hud]
    dsimp only
    rw [if_neg hne]
    cases hfr : findRow db rid with
    | none => rfl
    | some row =>
        dsimp only
        rw [if_pos (hforeign row hfr)]
  · intro ha hmiss
    have ha1 : body.action ≠ "skip" := by rw [ha]; decide
    have ha2 : body.action ≠ "edit" := by rw [ha]; decide
    rw [hred, if_neg ha1, if_neg ha2, if_pos ha]
    rcases hmiss with hm | hm
    · rw [hm]
    · rw [hm]
      simp
  · intro crid ha hcrid hne hforeign
    have ha1 : body.action ≠ "skip" := by rw [ha]; decide
    have ha2 : body.action ≠ "edit" := by rw [ha]; decide
    rw [hred, if_neg ha1, if_neg ha2, if_pos ha, hcrid]
    dsimp only
    rw [if_neg hne]
    cases hfr : findRow db crid with
    | none => rfl
    | some rr =>
        dsimp only
        rw [if_pos (hforeign rr hfr)]
  · intro ha hforeign
    refine ⟨recordAndResolve (skipRowUpdate db app.id body.rowId)
      issue.id (.skip body.rowId), ?_, ?_⟩
    · rw [hred, if_pos ha]
    · rw [skipRowUpdate_foreign db app.id body.rowId hforeign]
      exact recordAndResolve_rawRows db issue.id (.skip body.rowId)

def exBadAction9 : ResolveBody :=
  { action := "merge", chosenRowId := none, rowId := none,
    updEmail := none, updFirst := none, updLast := none, updCompany := none,
    hasUpdatedData := false }

def exEditMissing9 : ResolveBody :=
  { action := "edit", chosenRowId := none, rowId := some 99,
    updEmail := none, updFirst := none, updLast := none, updCompany := none,
    hasUpdatedData := false }

def exChooseForeign9 : ResolveBody :=
  { action := "choose", chosenRowId := some 99, rowId := none,
    updEmail := none, updFirst := none, updLast := none, updCompany := none,
    hasUpdatedData := false }

/-! ## Claim C5 -/

/-- The amended trimming semantics of one supplied update field: a
missing key keeps the old value, a null or empty-string value unsets the
field, and any other value is trimmed — so a whitespace-only value is
stored as the empty string, not unset. -/
def fieldUpdated (u : Option (Option String)) (old new : Option String) : Prop :=
  (u = none → new = old) ∧
  (u = some none → new = none) ∧
  (u = some (some "") → new = none) ∧
  (∀ s, u = some (some s) → s ≠ "" → new = some (pyStrip s))

theorem fieldUpdated_pyField (u : Option (Option String)) (old : Option String) :
    fieldUpdated u old (match u with | some v => pyField v | none => old) := by
  cases u with
  | none =>
      exact ⟨fun _ => rfl, fun h => Option.noConfusion h,
             fun h => Option.noConfusion h, fun s h _ => Option.noConfusion h⟩
  | some v =>
      cases v with
      | none =>
          refine ⟨fun h => Option.noConfusion h, fun _ => rfl, ?_, ?_⟩
          · intro h
            exact absurd h (by decide)
          · intro s h
            exact absurd h (by simp)
      | some s0 =>
          refine ⟨fun h => Option.noConfusion h, ?_, ?_, ?_⟩
          · intro h
            exact absurd h (by simp)
          · intro h
            have hs : s0 = "" := by
              have := Option.some.inj (Option.some.inj h)
              exact this
            show pyField (some s0) = none
            unfold pyField
            dsimp only
            rw [if_pos hs]
          · intro s h hne
            have hs : s0 = s := Option.some.inj (Option.some.inj h)
            show pyField (some s0) = some (pyStrip s)
            unfold pyField
            dsimp only
            rw [hs, if_neg hne]

/-- Behaviour of the recomputed normalized email of the edit branch. -/
theorem editNormalizedEmail_spec (u : Option String) :
    (u = none → editNormalizedEmail u = none) ∧
    (u = some "" → editNormalizedEmail u = none) ∧
    (∀ e, u = some e → e ≠ "" →
      ∀ ne, normalize_email (some e) = some ne →
        editNormalizedEmail u =
          (if is_valid_email_format ne then some ne else none)) ∧
    (∀ e, u = some e → e ≠ "" → normalize_email (some e) = none →
      editNormalizedEmail u = none) := by
  refine ⟨?_, ?_, ?_, ?_⟩
  · intro h
    rw [h]
    rfl
  · intro h
    rw [h]
    rfl
  · intro e he hne ne hnorm
    rw [he]
    unfold editNormalizedEmail
    dsimp only
    rw [if_neg hne, hnorm]
  · intro e he hne hnorm
    rw [he]
    unfold editNormalizedEmail
    dsimp only
    rw [if_neg hne, hnorm]

/-- The first `p`-satisfying element of a list is hit by `updateFirst`. -/
theorem updateFirst_hit {α : Type _} {p : α → Prop} [DecidablePred p]
    {f : α → α} :
    ∀ {l : List α}, (∃ x ∈ l, p x) →
      ∃ x ∈ l, p x ∧ f x ∈ updateFirst p f l := by
  intro l
  induction l with
  | nil => intro h; simp at h
  | cons x t ih =>
      intro h
      by_cases hx : p x
      · exact ⟨x, List.mem_cons_self x t, hx, by simp [updateFirst, if_pos hx]⟩
      · obtain ⟨y, hy, hpy⟩ := h
        rcases List.mem_cons.mp hy with rfl | hyt
        · exact absurd hpy hx
        · obtain ⟨z, hz, hpz, hfz⟩ := ih ⟨y, hyt, hpy⟩
          exact ⟨z, List.mem_cons_of_mem _ hz, hpz,
            by simp only [updateFirst, if_neg hx]
               exact List.mem_cons_of_mem _ hfz⟩

/-- C5 (amended): with an open issue whose job exists, an `edit`
resolution carrying a row id of the job and an update mapping succeeds;
the hit row is rewritten in place: every supplied field is trimmed
(a null or empty value unsets it, a whitespace-only value becomes the
empty string), the normalized email is recomputed from the updated
payload and re-validated against the spec-modelled format check (dropped
when invalid), the validity flag is forced back to true, the issue is
transitioned to RESOLVED, and the updated row sits among the job's valid
rows that a subsequent finalize groups by email. -/
theorem C5_edit_rewrites_row (db : DB) (iid : Nat) (body : ResolveBody)
    (issue : Issue) (app : Job) (rid : Nat) (row : RawRow)
    (h1 : findIssue db iid = some issue)
    (h2 : findJob db issue.jobId = some app)
    (h3 : issue.status ≠ IssueStatus.RESOLVED)
    (h4 : body.action = "edit") (h5 : body.rowId = some rid) (h6 : rid ≠ 0)
    (h7 : body.hasUpdatedData = true)
    (h8 : findRow db rid = some row) (h9 : row.jobId = app.id) :
    ∃ db', resolve_issue db iid body = .ok db' ∧
      findRow db' rid = some (editRowFn body row) ∧
      (editRowFn body row).isValid = true ∧
      fieldUpdated body.updEmail row.data.email
        (editRowFn body row).data.email ∧
      fieldUpdated body.updFirst row.data.firstName
        (editRowFn body row).data.firstName ∧
      fieldUpdated body.updLast row.data.lastName
        (editRowFn body row).data.lastName ∧
      fieldUpdated body.updCompany row.data.company
        (editRowFn body row).data.company ∧
      (editRowFn body row).normalizedEmail =
        editNormalizedEmail ((editRowFn body row).data.email) ∧
      (∃ i' ∈ db'.issues, i'.id = issue.id ∧
        i'.status = IssueStatus.RESOLVED) ∧
      editRowFn body row ∈ validRowsOf db' row.jobId := by
  have hok : resolve_issue db iid body =
      .ok (recordAndResolve (editApply db rid body) issue.id
        (.edit rid body.updEmail body.updFirst body.updLast body.updCompany)) := by
    unfold resolve_issue
    rw [h1]
    dsimp only
    rw [h2]
    dsimp only
    rw [if_neg h3, if_neg (by rw [h4]; decide : ¬ body.action = "skip"),
        if_pos h4, h5, h7]
    dsimp only
    rw [if_neg h6, h8]
    dsimp only
    rw [if_neg (by rw [h9]; exact fun hc => hc rfl)]
  set db' := recordAndResolve (editApply db rid body) issue.id
    (.edit rid body.updEmail body.updFirst body.updLast body.updCompany) with hdb'
  have hrows : db'.rawRows =
      updateFirst (fun r => r.id = rid) (editRowFn body) db.rawRows := by
    rw [hdb']
    rw [recordAndResolve_rawRows]
    rfl
  have hfindrow : findRow db' rid = some (editRowFn body row) := by
    unfold findRow
    rw [hrows]
    rw [findFirst_updateFirst (p := fun r : RawRow => r.id = rid)
      (f := editRowFn body) (fun a => Iff.rfl)]
    unfold findRow at h8
    rw [h8]
    rfl
  refine ⟨db', hok, hfindrow, rfl, fieldUpdated_pyField _ _,
    fieldUpdated_pyField _ _, fieldUpdated_pyField _ _,
    fieldUpdated_pyField _ _, rfl, ?_, ?_⟩
  · -- the issue is RESOLVED in the result
    have hmem : issue ∈ db.issues ∧ issue.id = iid := findFirst_mem h1
    have hissues : db'.issues =
        updateFirst (fun i => i.id = issue.id)
          (fun i => { i with status := IssueStatus.RESOLVED })
          db.issues := by
      rw [hdb']
      unfold recordAndResolve setIssueResolved
      dsimp only
      rw [(upsertResolution_frame (editApply db rid body) issue.id _).2.2.1]
      rfl
    obtain ⟨x, hx, hpx, hfx⟩ := updateFirst_hit
      (p := fun i => i.id = issue.id)
      (f := fun i => { i with status := IssueStatus.RESOLVED })
      ⟨issue, hmem.1, rfl⟩
    refine ⟨{ x with status := IssueStatus.RESOLVED }, ?_, hpx, rfl⟩
    rw [hissues]
    exact hfx
  · -- the edited row is among the valid rows finalize groups
    have hm := findFirst_mem hfindrow
    unfold validRowsOf
    rw [List.mem_filter]
    refine ⟨hm.1, ?_⟩
    have hjob : (editRowFn body row).jobId = row.jobId := rfl
    have hval : (editRowFn body row).isValid = true := rfl
    simp [hjob, hval]

def exJob5 : Job :=
  { id := 1, status := JobStatus.NEEDS_REVIEW, totalRows := 1, validRows := 1,
    invalidRows := 0, conflictCount := 1, errorMessage := none }

def exIss5 : Issue :=
  { id := 1, jobId := 1, type := IssueType.DUPLICATE_EMAIL,
    status := IssueStatus.OPEN, key := "x@y.com",
    payload := { email := "x@y.com", candidates := [] } }

def exRow5 : RawRow :=
  { id := 1, jobId := 1, rowNumber := 2,
    data := { email := some "x@y.com", firstName := some "Old",
              lastName := some "B", company := some "Co1" },
    normalizedEmail := some "x@y.com", isValid := true,
    validationErrors := [] }

def exDb5 : DB :=
  { jobs := [exJob5], rawRows := [exRow5], issues := [exIss5],
    resolutions := [], finalContacts := [], nextRowId := 2, nextIssueId := 2 }

/-- An edit supplying only a whitespace-only first name. -/
def exEditWhitespace5 : ResolveBody :=
  { action := "edit", chosenRowId := none, rowId := some 1,
    updEmail := none, updFirst := some (some "   "), updLast := none,
    updCompany := none, hasUpdatedData := true }

/-- C5 counterexample: the claim says an empty trimmed value becomes
unset, but a supplied whitespace-only first name is stored as the empty
string (JSON `""`), not as an unset (null) field: only a value that is
already falsy before trimming is stored as null
(`main.py` line 262: `v.strip() if v else None`). -/
theorem C5_counterexample_whitespace_not_unset :
    ((resolve_issue exDb5 1 exEditWhitespace5).toOption.bind
      (fun d => findFirst (fun r : RawRow => r.id = 1) d.rawRows)).map
        (fun r => r.data.firstName) = some (some "") := by
  decide

/-- Witness for the amended C5 at a concrete edit request. -/
theorem C5_witness :
    ∃ db', resolve_issue exDb5 1 exEditWhitespace5 = .ok db' ∧
      findRow db' 1 = some (editRowFn exEditWhitespace5 exRow5) := by
  obtain ⟨db', hok, hfind, _⟩ := C5_edit_rewrites_row exDb5 1
    exEditWhitespace5 exIss5 exJob5 1 exRow5 (by decide) (by decide)
    (by decide) rfl rfl (by decide) rfl (by decide) (by decide)
  exact ⟨db', hok, hfind⟩

/-! ## Claims C6 and C7: contact-list helper lemmas -/

theorem filter_eq_self_of_all {α : Type _} {p : α → Bool} :
    ∀ {l : List α}, (∀ x ∈ l, p x = true) → l.filter p = l
  | [], _ => rfl
  | x :: t, h => by
      have hx := h x (List.mem_cons_self x t)
      simp only [List.filter, hx]
      rw [filter_eq_self_of_all (fun y hy => h y (List.mem_cons_of_mem _ hy))]

theorem buildContactsChosen_jobId (rows : List RawRow) (jid : Nat)
    (chosen : List (String × Nat)) (groups : List (String × List RawRow)) :
    ∀ c ∈ buildContactsChosen rows jid chosen groups, c.jobId = jid := by
  intro c hc
  unfold buildContactsChosen at hc
  rw [List.mem_filterMap] at hc
  obtain ⟨g, hg, hmap⟩ := hc
  split at hmap
  · obtain ⟨row, _, hrow⟩ := Option.map_eq_some'.mp hmap
    rw [← hrow]
    rfl
  · obtain ⟨row, _, hrow⟩ := Option.map_eq_some'.mp hmap
    rw [← hrow]
    rfl

theorem buildContactsFirst_jobId (jid : Nat)
    (groups : List (String × List RawRow)) :
    ∀ c ∈ buildContactsFirst jid groups, c.jobId = jid := by
  intro c hc
  unfold buildContactsFirst at hc
  rw [List.mem_filterMap] at hc
  obtain ⟨g, hg, hmap⟩ := hc
  obtain ⟨row, _, hrow⟩ := Option.map_eq_some'.mp hmap
  rw [← hrow]
  rfl

/-- With an empty chosen-row map, the explicit finalizer picks exactly
what the worker's auto-finalizer picks: the first row of every group. -/
theorem buildContactsChosen_nil (rows : List RawRow) (jid : Nat)
    (groups : List (String × List RawRow)) :
    buildContactsChosen rows jid [] groups = buildContactsFirst jid groups := rfl

/-! ## Claim C6 -/

def exJob6 : Job :=
  { id := 1, status := JobStatus.NEEDS_REVIEW, totalRows := 2, validRows := 2,
    invalidRows := 0, conflictCount := 1, errorMessage := none }

def exRow6a : RawRow :=
  { id := 1, jobId := 1, rowNumber := 2,
    data := { email := some "bob@x.com", firstName := some "Bob",
              lastName := some "B", company := some "Co1" },
    normalizedEmail := some "bob@x.com", isValid := true,
    validationErrors := [] }

def exRow6b : RawRow :=
  { id := 2, jobId := 1, rowNumber := 3,
    data := { email := some "bob@x.com", firstName := some "Robert",
              lastName := some "B", company := some "Co2" },
    normalizedEmail := some "bob@x.com", isValid := true,
    validationErrors := [] }

def exIss6 : Issue :=
  { id := 1, jobId := 1, type := IssueType.DUPLICATE_EMAIL,
    status := IssueStatus.RESOLVED, key := "bob@x.com",
    payload := { email := "bob@x.com", candidates := [] } }

/-- A job whose duplicate issue was resolved by choosing the second row:
zero OPEN issues, so both finalization paths are enabled. -/
def exDb6 : DB :=
  { jobs := [exJob6], rawRows := [exRow6a, exRow6b], issues := [exIss6],
    resolutions := [⟨1, ResolutionPayload.choose 2⟩], finalContacts := [],
    nextRowId := 3, nextIssueId := 2 }

/-- C6 counterexample: on the same job state with zero OPEN issues, the
explicitly triggered finalize honours the recorded `choose` resolution
(row 2, company Co2) while the worker's automatic finalization always
takes the first valid row per email (row 1, company Co1): the two paths
emit different FinalContact sets, so they are not observationally
equivalent. -/
theorem C6_counterexample_paths_differ :
    (match finalize_job exDb6 1 with
     | FinalizeResult.ok d => d.finalContacts
     | _ => []) ≠
    ((auto_finalize_if_no_issues exDb6 1).1).finalContacts := by
  decide

/-- C6 (amended): both finalization paths require zero OPEN issues and
set the job status to COMPLETED, but the worker's auto-finalize ignores
recorded resolutions (and never clears previous contacts); the two paths
produce the same FinalContact set for the job in the restricted case
where no duplicate-email resolution pair exists (empty chosen-row map)
and no previous FinalContact rows of the job are present. -/
theorem C6_paths_agree_without_choices (db : DB) (jid : Nat) (j : Job)
    (h1 : findJob db jid = some j) (h2 : openCount db jid = 0)
    (h3 : buildChosen db.issues db.resolutions jid = some [])
    (h4 : db.finalContacts.filter (fun c => decide (c.jobId = jid)) = []) :
    ∃ dbf, finalize_job db jid = .ok dbf ∧
      (auto_finalize_if_no_issues db jid).2 = true ∧
      dbf.finalContacts.filter (fun c => decide (c.jobId = jid)) =
        ((auto_finalize_if_no_issues db jid).1).finalContacts.filter
          (fun c => decide (c.jobId = jid)) ∧
      findJob dbf jid = some { j with status := JobStatus.COMPLETED } ∧
      findJob ((auto_finalize_if_no_issues db jid).1) jid =
        some { j with status := JobStatus.COMPLETED } := by
  have hnopen : ¬ 0 < openCount db jid := by
    rw [h2]
    exact Nat.lt_irrefl 0
  have hfin : finalize_job db jid =
      .ok (finalizeCommit (clearedContacts db jid) jid []) := by
    unfold finalize_job
    rw [h1]
    dsimp only
    rw [if_neg hnopen, h3]
  have hauto : auto_finalize_if_no_issues db jid =
      ({ db with
          finalContacts := db.finalContacts ++
            buildContactsFirst jid (groupByEmail (validRowsOf db jid)),
          jobs := updateFirst (fun x : Job => x.id = jid)
            (fun x => { x with status := JobStatus.COMPLETED }) db.jobs },
       true) := by
    unfold auto_finalize_if_no_issues
    rw [if_neg hnopen]
  refine ⟨finalizeCommit (clearedContacts db jid) jid [], hfin,
    by rw [hauto], ?_, ?_, ?_⟩
  · -- equal FinalContact sets for the job
    have hCall := buildContactsFirst_jobId jid (groupByEmail (validRowsOf db jid))
    show ((db.finalContacts.filter (fun c => !(decide (c.jobId = jid)))) ++
        buildContactsFirst jid (groupByEmail (validRowsOf db jid))).filter
          (fun c => decide (c.jobId = jid)) =
      ((auto_finalize_if_no_issues db jid).1).finalContacts.filter
        (fun c => decide (c.jobId = jid))
    rw [hauto]
    dsimp only
    rw [List.filter_append, List.filter_append]
    rw [filter_eq_nil_of_all (l := db.finalContacts.filter
        (fun c => !(decide (c.jobId = jid))))
      (fun x hx => by
        have hm := List.mem_filter.mp hx
        simpa using hm.2), h4]
  · -- explicit path status
    show findFirst (fun x : Job => x.id = jid)
      (updateFirst (fun x : Job => x.id = jid)
        (fun x => { x with status := JobStatus.COMPLETED }) db.jobs) =
      some { j with status := JobStatus.COMPLETED }
    rw [findFirst_updateFirst (p := fun x : Job => x.id = jid)
      (f := fun x => { x with status := JobStatus.COMPLETED })
      (fun a => Iff.rfl)]
    unfold findJob at h1
    rw [h1]
    rfl
  · -- automatic path status
    rw [hauto]
    show findFirst (fun x : Job => x.id = jid)
      (updateFirst (fun x : Job => x.id = jid)
        (fun x => { x with status := JobStatus.COMPLETED }) db.jobs) =
      some { j with status := JobStatus.COMPLETED }
    rw [findFirst_updateFirst (p := fun x : Job => x.id = jid)
      (f := fun x => { x with status := JobStatus.COMPLETED })
      (fun a => Iff.rfl)]
    unfold findJob at h1
    rw [h1]
    rfl

def exJob6W : Job :=
  { id := 7, status := JobStatus.PROCESSING, totalRows := 1, validRows := 1,
    invalidRows := 0, conflictCount := 0, errorMessage := none }

def exDb6W : DB :=
  { jobs := [exJob6W],
    rawRows := [{ id := 1, jobId := 7, rowNumber := 2,
                  data := { email := some "a@b.com", firstName := some "A",
                            lastName := none, company := none },
                  normalizedEmail := some "a@b.com", isValid := true,
                  validationErrors := [] }],
    issues := [], resolutions := [], finalContacts := [],
    nextRowId := 2, nextIssueId := 1 }

/-- Witness for the amended C6 on a job without issues. -/
theorem C6_witness :
    ∃ dbf, finalize_job exDb6W 7 = .ok dbf ∧
      (auto_finalize_if_no_issues exDb6W 7).2 = true := by
  obtain ⟨dbf, ha, hb, _⟩ := C6_paths_agree_without_choices exDb6W 7 exJob6W
    (by decide) (by decide) rfl (by decide)
  exact ⟨dbf, ha, hb⟩

/-! ## Claim C7 -/

theorem dbFieldsEq {a b : DB} (h1 : a.jobs = b.jobs)
    (h2 : a.rawRows = b.rawRows) (h3 : a.issues = b.issues)
    (h4 : a.resolutions = b.resolutions)
    (h5 : a.finalContacts = b.finalContacts)
    (h6 : a.nextRowId = b.nextRowId) (h7 : a.nextIssueId = b.nextIssueId) :
    a = b := by
  cases a
  cases b
  simp_all

/-- C7: finalize is idempotent — a successful finalize run followed by a
second finalize with no intervening changes succeeds and reproduces
exactly the same database state (same FinalContact set, same COMPLETED
status), because finalize deletes the job's prior FinalContact rows and
regenerates them from unchanged rows and resolutions. -/
theorem C7_finalize_idempotent (db : DB) (jid : Nat) (db' : DB)
    (h : finalize_job db jid = .ok db') :
    finalize_job db' jid = .ok db' := by
  obtain ⟨j, chosen, hj, hopen, hch, rfl⟩ := finalize_ok_elim db jid db' h
  have hfind' : findJob (finalizeCommit (clearedContacts db jid) jid chosen) jid =
      some ({ j with status := JobStatus.COMPLETED }) := by
    show findFirst (fun x : Job => x.id = jid)
      (updateFirst (fun x : Job => x.id = jid)
        (fun x => { x with status := JobStatus.COMPLETED }) db.jobs) =
      some { j with status := JobStatus.COMPLETED }
    rw [findFirst_updateFirst (p := fun x : Job => x.id = jid)
      (f := fun x => { x with status := JobStatus.COMPLETED })
      (fun a => Iff.rfl)]
    unfold findJob at hj
    rw [hj]
    rfl
  have hopen' : ¬ 0 < openCount (finalizeCommit (clearedContacts db jid) jid chosen) jid :=
    hopen
  have hch' : buildChosen (finalizeCommit (clearedContacts db jid) jid chosen).issues
      (finalizeCommit (clearedContacts db jid) jid chosen).resolutions jid =
      some chosen := hch
  unfold finalize_job
  rw [hfind']
  dsimp only
  rw [if_neg hopen', hch']
  dsimp only
  refine congrArg FinalizeResult.ok (dbFieldsEq ?_ rfl rfl rfl ?_ rfl rfl)
  · -- setting the status to COMPLETED twice equals setting it once
    show updateFirst (fun x : Job => x.id = jid)
        (fun x => { x with status := JobStatus.COMPLETED })
        (updateFirst (fun x : Job => x.id = jid)
          (fun x => { x with status := JobStatus.COMPLETED }) db.jobs) =
      updateFirst (fun x : Job => x.id = jid)
        (fun x => { x with status := JobStatus.COMPLETED }) db.jobs
    exact updateFirst_idem (p := fun x : Job => x.id = jid)
      (f := fun x => { x with status := JobStatus.COMPLETED })
      (fun a => Iff.rfl) (fun a => rfl) db.jobs
  · -- clearing and regenerating reproduces the same contact list
    have hCall := buildContactsChosen_jobId db.rawRows jid chosen
      (groupByEmail (validRowsOf db jid))
    show ((db.finalContacts.filter (fun c => !(decide (c.jobId = jid))) ++
        buildContactsChosen db.rawRows jid chosen
          (groupByEmail (validRowsOf db jid))).filter
            (fun c => !(decide (c.jobId = jid)))) ++
      buildContactsChosen db.rawRows jid chosen
        (groupByEmail (validRowsOf db jid)) =
      db.finalContacts.filter (fun c => !(decide (c.jobId = jid))) ++
      buildContactsChosen db.rawRows jid chosen
        (groupByEmail (validRowsOf db jid))
    rw [List.filter_append, filter_idem]
    rw [filter_eq_nil_of_all (l := buildContactsChosen db.rawRows jid chosen
        (groupByEmail (validRowsOf db jid)))
      (fun x hx => by simp [hCall x hx])]
    rw [List.append_nil]

def exJob7 : Job :=
  { id := 4, status := JobStatus.NEEDS_REVIEW, totalRows := 1, validRows := 1,
    invalidRows := 0, conflictCount := 0, errorMessage := none }

def exDb7 : DB :=
  { jobs := [exJob7],
    rawRows := [{ id := 1, jobId := 4, rowNumber := 2,
                  data := { email := some "c@d.com", firstName := some "C",
                            lastName := none, company := none },
                  normalizedEmail := some "c@d.com", isValid := true,
                  validationErrors := [] }],
    issues := [], resolutions := [], finalContacts := [],
    nextRowId := 2, nextIssueId := 1 }

def exDb7' : DB :=
  match finalize_job exDb7 4 with
  | FinalizeResult.ok d => d
  | _ => exDb7

/-- Witness for C7: the second finalize run reproduces the first run's
state exactly. -/
theorem C7_witness : finalize_job exDb7' 4 = .ok exDb7' :=
  C7_finalize_idempotent exDb7 4 exDb7' (by rfl)

/-- Witness for the amended C9 at concrete requests. -/
theorem C9_witness :
    resolve_issue exDb9 1 exBadAction9 = .error 400 ∧
    resolve_issue exDb9 1 exEditMissing9 = .error 400 ∧
    resolve_issue exDb9 1 exChooseForeign9 = .error 400 :=
  ⟨(C9_request_validation_except_skip exDb9 1 exBadAction9 exIss9 exJob9
      (by decide) (by decide) (by decide)).1 (by decide) (by decide) (by decide),
   (C9_request_validation_except_skip exDb9 1 exEditMissing9 exIss9 exJob9
      (by decide) (by decide) (by decide)).2.1 rfl (Or.inr (Or.inr rfl)),
   (C9_request_validation_except_skip exDb9 1 exChooseForeign9 exIss9 exJob9
      (by decide) (by decide) (by decide)).2.2.2.2.1 99 rfl rfl (by decide)
      (fun row hrow => by
        have h := findFirst_mem hrow
        have : row = exRow9foreign := by
          rcases List.mem_cons.mp h.1 with h1 | h1
          · exact h1
          · simp at h1
        rw [this]
        decide)⟩

end Ingest
